import Mathlib

/-!
Verification of the resume-markdown-to-PDF converter (resume_to_pdf.py).

The embedding works over `List Char` (a Python `str`) and `List (List Char)`
(the result of `str.split` on a newline). The scanning passes of `md_inline`
and the line-classifier loop of `parse_resume_md` are written with an explicit
fuel argument; every step consumes at least one character (resp. line), so
fuel equal to the input length is always sufficient, and the top-level
wrappers supply exactly that.
-/

namespace MdResume

abbrev Chars := List Char

/-- Does `p` occur as a leading segment of `l`? (Python `str.startswith`.) -/
def startsL : Chars → Chars → Bool
  | [], _ => true
  | _ :: _, [] => false
  | p :: ps, c :: cs => p == c && startsL ps cs

/-- Does `p` occur as a contiguous segment of `l`? (Python `in` on strings.) -/
def containsL (p : Chars) : Chars → Bool
  | [] => p.isEmpty
  | c :: rest => startsL p (c :: rest) || containsL p rest

/-- The whitespace set of Python `str.strip` (ASCII part). -/
def pyIsSpace (c : Char) : Bool :=
  c == ' ' || c == '\t' || c == '\n' || c == '\r' || c == '\x0b' || c == '\x0c'

/-- Python `str.rstrip()`. -/
def pyRstrip : Chars → Chars
  | [] => []
  | c :: rest =>
    let r := pyRstrip rest
    if r.isEmpty then (if pyIsSpace c then [] else [c]) else c :: r

/-- Python `str.lstrip()`. -/
def pyLstrip (l : Chars) : Chars := l.dropWhile pyIsSpace

/-- Python `str.strip()`. -/
def pyStrip (l : Chars) : Chars := pyLstrip (pyRstrip l)

/-- Python `str.strip("*")`: remove all leading and trailing asterisks. -/
def stripStar (l : Chars) : Chars :=
  ((l.dropWhile (fun c => c == '*')).reverse.dropWhile (fun c => c == '*')).reverse

/-- Python `md_text.split(chr 10)`. -/
def splitLines : Chars → List Chars
  | [] => [[]]
  | c :: rest =>
    if c == '\n' then [] :: splitLines rest
    else
      match splitLines rest with
      | l :: ls => (c :: l) :: ls
      | [] => [[c]]

/-! ## The inline-markup normalizer `md_inline`

Four substitution passes, in the order of the source: links, bold, italic,
ampersand escaping. Each pass is the left-to-right, non-overlapping,
leftmost-match scan of Python `re.sub`; replacements are not rescanned. -/

/-- Match of `\[([^\]]+)\]\(([^)]+)\)` anchored at the head of `l`:
returns the label group, the url group and the remaining input. -/
def tryLink (l : Chars) : Option (Chars × Chars × Chars) :=
  match l with
  | [] => none
  | c :: rest =>
    if c = '[' then
      let label := rest.takeWhile (fun c => c != ']')
      if label.isEmpty then none
      else
        match rest.dropWhile (fun c => c != ']') with
        | ']' :: '(' :: r2 =>
          let url := r2.takeWhile (fun c => c != ')')
          if url.isEmpty then none
          else
            match r2.dropWhile (fun c => c != ')') with
            | ')' :: r4 => some (label, url, r4)
            | _ => none
        | _ => none
    else none

/-- The accent color of the THEME table. -/
def themeAccent : Chars := "#2d6a8f".data

/-- The replacement text of the link pass. -/
def linkRepl (label url : Chars) : Chars :=
  "<a href=\"".data ++ url ++ ("\" color=\"".data ++ themeAccent ++ "\">".data)
    ++ label ++ "</a>".data

/-- Link pass of `md_inline` (fueled scan). -/
def linkPassF : Nat → Chars → Chars
  | 0, l => l
  | _ + 1, [] => []
  | n + 1, c :: rest =>
    match tryLink (c :: rest) with
    | some (label, url, r) => linkRepl label url ++ linkPassF n r
    | none => c :: linkPassF n rest

def linkPass (l : Chars) : Chars := linkPassF l.length l

/-- Shortest-match search for the closing `**` of the non-greedy
`\*\*(.+?)\*\*`: splits `l` into a nonempty inner group (containing no
newline, since `.` does not cross lines) and the input after the closer. -/
def findBoldClose : Chars → Option (Chars × Chars)
  | [] => none
  | c :: rest =>
    if c == '\n' then none
    else
      match rest with
      | '*' :: '*' :: r => some ([c], r)
      | _ =>
        match findBoldClose rest with
        | some (inner, r) => some (c :: inner, r)
        | none => none

/-- Bold pass of `md_inline`: `\*\*(.+?)\*\*` to `<b>...</b>`. -/
def boldPassF : Nat → Chars → Chars
  | 0, l => l
  | _ + 1, [] => []
  | n + 1, c :: rest =>
    if c == '*' then
      match rest with
      | '*' :: rest2 =>
        match findBoldClose rest2 with
        | some (inner, r) => "<b>".data ++ inner ++ "</b>".data ++ boldPassF n r
        | none => '*' :: boldPassF n ('*' :: rest2)
      | _ => c :: boldPassF n rest
    else c :: boldPassF n rest

def boldPass (l : Chars) : Chars := boldPassF l.length l

/-- Shortest-match search for the closing `*` of the non-greedy
`\*(.+?)\*`. -/
def findItalicClose : Chars → Option (Chars × Chars)
  | [] => none
  | c :: rest =>
    if c == '\n' then none
    else
      match rest with
      | '*' :: r => some ([c], r)
      | _ =>
        match findItalicClose rest with
        | some (inner, r) => some (c :: inner, r)
        | none => none

/-- Italic pass of `md_inline`: `\*(.+?)\*` to `<i>...</i>`. -/
def italicPassF : Nat → Chars → Chars
  | 0, l => l
  | _ + 1, [] => []
  | n + 1, c :: rest =>
    if c == '*' then
      match findItalicClose rest with
      | some (inner, r) => "<i>".data ++ inner ++ "</i>".data ++ italicPassF n r
      | none => '*' :: italicPassF n rest
    else c :: italicPassF n rest

def italicPass (l : Chars) : Chars := italicPassF l.length l

/-- The negative lookahead `(?!amp;|lt;|gt;|quot;|#)` of the ampersand pass:
is the text after an ampersand the continuation of a recognized entity? -/
def entityHead (l : Chars) : Bool :=
  startsL "amp;".data l || startsL "lt;".data l || startsL "gt;".data l ||
  startsL "quot;".data l || startsL "#".data l

/-- Ampersand pass of `md_inline`: escape each `&` that does not begin a
recognized entity reference. -/
def ampPassF : Nat → Chars → Chars
  | 0, l => l
  | _ + 1, [] => []
  | n + 1, c :: rest =>
    if c == '&' then
      if entityHead rest then '&' :: ampPassF n rest
      else "&amp;".data ++ ampPassF n rest
    else c :: ampPassF n rest

def ampPass (l : Chars) : Chars := ampPassF l.length l

/-- `md_inline` of the source: link, bold, italic, ampersand passes in
this fixed order. -/
def md_inline (l : Chars) : Chars := ampPass (italicPass (boldPass (linkPass l)))

/-! ## The line classifier / block builder `parse_resume_md`

One Block per recognized unit; `Paragraph(text, style)` of the source is
modelled as the block kind named by the style, carrying the text handed to
the renderer. -/

inductive Block where
  | RuleThick : Block
  | RuleThin : Block
  | Title : Chars → Block
  | SectionHeader : Chars → Block
  | RoleHeader : Chars → Block
  | CompanyLine : Chars → Block
  | Subtitle : Chars → Block
  | ItalicLabel : Chars → Block
  | Bullet : Chars → Block
  | ContactLine : Chars → Block
  | SkillsLine : Chars → Block
  | Body : Chars → Block
deriving DecidableEq

/-- `re.match(r'^-\x7b3,\x7d$', l)`: three or more hyphens and nothing else. -/
def isRuleLine (l : Chars) : Bool :=
  decide (3 ≤ l.length) && l.all (fun c => c == '-')

/-- `line.startswith('# ') and not line.startswith('## ')`. -/
def isH1 (l : Chars) : Bool := startsL "# ".data l && !startsL "## ".data l

def isH2 (l : Chars) : Bool := startsL "## ".data l

def isH3 (l : Chars) : Bool := startsL "### ".data l

/-- `re.match(r'^\*\*[^*]+\*\*', line)`: leading `**`, a nonempty run of
non-asterisks, then `**`. -/
def companyBold (l : Chars) : Bool :=
  startsL "**".data l &&
    !((l.drop 2).takeWhile (fun c => c != '*')).isEmpty &&
    startsL "**".data ((l.drop 2).dropWhile (fun c => c != '*'))

/-- Rule 6 of the classifier: bold-open line that also contains a pipe. -/
def isCompanyLine (l : Chars) : Bool := companyBold l && l.contains '|'

/-- `re.match(r'^\*\*(.+)\*\*$', line)`: the whole line is one bold span. -/
def isSubtitleLine (l : Chars) : Bool :=
  decide (5 ≤ l.length) && startsL "**".data l && startsL "**".data l.reverse &&
    !l.contains '\n'

/-- Group 1 of the subtitle match: the line without its outer `**` pair. -/
def subInner (l : Chars) : Chars := (l.drop 2).take (l.length - 4)

/-- `re.match(r'^\*[^*]+\*$', line)`: the whole line is one italic span. -/
def isItalicLabelLine (l : Chars) : Bool :=
  startsL "*".data l && decide (2 ≤ (l.drop 1).length) &&
    ((l.drop 1).getLast? == some '*') && (l.drop 1).dropLast.all (fun c => c != '*')

def isBulletStart (l : Chars) : Bool := startsL "- ".data l

def isContactLine (l : Chars) : Bool := l.contains '|' && l.contains '@'

/-- Rule 11 condition: an active section whose lower-cased name contains
"expertise", and a line containing `**`. -/
def isSkillsLine (currentSection : Option Chars) (l : Chars) : Bool :=
  match currentSection with
  | some s => containsL "expertise".data (s.map Char.toLower) && containsL "**".data l
  | none => false

/-- Bullet continuation loop: absorb following lines while the next raw line
starts with two spaces and its stripped form is not a new bullet. Returns
(joined text, absorbed raw lines, remaining lines). -/
def bulletCont : Chars → List Chars → Chars × List Chars × List Chars
  | t, [] => (t, [], [])
  | t, next :: r =>
    if startsL "  ".data next && !startsL "- ".data (pyStrip next) then
      let q := bulletCont (t ++ ' ' :: pyStrip next) r
      (q.1, next :: q.2.1, q.2.2)
    else (t, [], next :: r)

/-- Body continuation loop: absorb following lines while the next raw line is
non-blank, does not start with `#`, does not start with `- `, is not a rule
line, and does not start with `**`. Returns (joined text, absorbed raw lines,
remaining lines). -/
def bodyCont : Chars → List Chars → Chars × List Chars × List Chars
  | t, [] => (t, [], [])
  | t, next :: r =>
    if !(pyStrip next).isEmpty && !startsL "#".data next &&
        !startsL "- ".data next && !isRuleLine next && !startsL "**".data next then
      let q := bodyCont (t ++ ' ' :: pyStrip next) r
      (q.1, next :: q.2.1, q.2.2)
    else (t, [], next :: r)

/-- The rendered text prefix of a bullet paragraph. -/
def bulletMark : Chars := "&#8226; &nbsp;".data

/-- Contact-line cleanup, first step: `re.sub(r'\[([^\]]+)\]\(([^)]+)\)', r'\1', line)`,
the same link scan as `md_inline` but replacing by the bare label. -/
def linkStripF : Nat → Chars → Chars
  | 0, l => l
  | _ + 1, [] => []
  | n + 1, c :: rest =>
    match tryLink (c :: rest) with
    | some (label, _, r) => label ++ linkStripF n r
    | none => c :: linkStripF n rest

def linkStrip (l : Chars) : Chars := linkStripF l.length l

/-- Contact-line cleanup, second step: `contact.replace('|', '&nbsp;|&nbsp;')`. -/
def pipePad : Chars → Chars
  | [] => []
  | c :: rest =>
    if c == '|' then "&nbsp;|&nbsp;".data ++ pipePad rest
    else c :: pipePad rest

/-- The classifier loop of `parse_resume_md`, one step per iteration of the
source `while` loop, with fuel bounding the number of iterations. -/
def parseLinesF : Nat → Bool → Option Chars → List Chars → List Block
  | 0, _, _, _ => []
  | _ + 1, _, _, [] => []
  | n + 1, isHeaderDone, currentSection, raw :: rest =>
    if (pyRstrip raw).isEmpty then parseLinesF n isHeaderDone currentSection rest
    else if isRuleLine (pyRstrip raw) then
      if !isHeaderDone then Block.RuleThick :: parseLinesF n true currentSection rest
      else Block.RuleThin :: parseLinesF n isHeaderDone currentSection rest
    else if isH1 (pyRstrip raw) then
      Block.Title (md_inline (pyStrip ((pyRstrip raw).drop 2))) ::
        parseLinesF n isHeaderDone currentSection rest
    else if isH2 (pyRstrip raw) then
      Block.SectionHeader ((pyStrip ((pyRstrip raw).drop 3)).map Char.toUpper) ::
        parseLinesF n isHeaderDone (some (pyStrip ((pyRstrip raw).drop 3))) rest
    else if isH3 (pyRstrip raw) then
      Block.RoleHeader (md_inline (pyStrip ((pyRstrip raw).drop 4))) ::
        parseLinesF n isHeaderDone currentSection rest
    else if isCompanyLine (pyRstrip raw) then
      Block.CompanyLine (md_inline (pyRstrip raw)) :: parseLinesF n isHeaderDone currentSection rest
    else if isSubtitleLine (pyRstrip raw) && !isHeaderDone then
      Block.Subtitle (md_inline (subInner (pyRstrip raw))) ::
        parseLinesF n isHeaderDone currentSection rest
    else if isItalicLabelLine (pyRstrip raw) then
      Block.ItalicLabel (pyStrip (stripStar (pyRstrip raw))) ::
        parseLinesF n isHeaderDone currentSection rest
    else if isBulletStart (pyRstrip raw) then
      Block.Bullet (bulletMark ++ md_inline (bulletCont (pyStrip ((pyRstrip raw).drop 2)) rest).1) ::
        parseLinesF n isHeaderDone currentSection
          (bulletCont (pyStrip ((pyRstrip raw).drop 2)) rest).2.2
    else if isContactLine (pyRstrip raw) then
      Block.ContactLine (pipePad (linkStrip (pyRstrip raw))) ::
        parseLinesF n isHeaderDone currentSection rest
    else if isSkillsLine currentSection (pyRstrip raw) then
      Block.SkillsLine (md_inline (pyRstrip raw)) :: parseLinesF n isHeaderDone currentSection rest
    else
      Block.Body (md_inline (bodyCont (pyRstrip raw) rest).1) ::
        parseLinesF n isHeaderDone currentSection (bodyCont (pyRstrip raw) rest).2.2

/-- Instrumented variant of `parseLinesF`: identical classification, but each
step also records the span of raw input lines it consumed, pairing it with
the emitted block (`none` for a skipped blank line). -/
def parseUnitsF : Nat → Bool → Option Chars → List Chars → List (List Chars × Option Block)
  | 0, _, _, _ => []
  | _ + 1, _, _, [] => []
  | n + 1, isHeaderDone, currentSection, raw :: rest =>
    if (pyRstrip raw).isEmpty then ([raw], none) :: parseUnitsF n isHeaderDone currentSection rest
    else if isRuleLine (pyRstrip raw) then
      if !isHeaderDone then ([raw], some Block.RuleThick) :: parseUnitsF n true currentSection rest
      else ([raw], some Block.RuleThin) :: parseUnitsF n isHeaderDone currentSection rest
    else if isH1 (pyRstrip raw) then
      ([raw], some (Block.Title (md_inline (pyStrip ((pyRstrip raw).drop 2))))) ::
        parseUnitsF n isHeaderDone currentSection rest
    else if isH2 (pyRstrip raw) then
      ([raw], some (Block.SectionHeader ((pyStrip ((pyRstrip raw).drop 3)).map Char.toUpper))) ::
        parseUnitsF n isHeaderDone (some (pyStrip ((pyRstrip raw).drop 3))) rest
    else if isH3 (pyRstrip raw) then
      ([raw], some (Block.RoleHeader (md_inline (pyStrip ((pyRstrip raw).drop 4))))) ::
        parseUnitsF n isHeaderDone currentSection rest
    else if isCompanyLine (pyRstrip raw) then
      ([raw], some (Block.CompanyLine (md_inline (pyRstrip raw)))) ::
        parseUnitsF n isHeaderDone currentSection rest
    else if isSubtitleLine (pyRstrip raw) && !isHeaderDone then
      ([raw], some (Block.Subtitle (md_inline (subInner (pyRstrip raw))))) ::
        parseUnitsF n isHeaderDone currentSection rest
    else if isItalicLabelLine (pyRstrip raw) then
      ([raw], some (Block.ItalicLabel (pyStrip (stripStar (pyRstrip raw))))) ::
        parseUnitsF n isHeaderDone currentSection rest
    else if isBulletStart (pyRstrip raw) then
      (raw :: (bulletCont (pyStrip ((pyRstrip raw).drop 2)) rest).2.1,
          some (Block.Bullet
            (bulletMark ++ md_inline (bulletCont (pyStrip ((pyRstrip raw).drop 2)) rest).1))) ::
        parseUnitsF n isHeaderDone currentSection
          (bulletCont (pyStrip ((pyRstrip raw).drop 2)) rest).2.2
    else if isContactLine (pyRstrip raw) then
      ([raw], some (Block.ContactLine (pipePad (linkStrip (pyRstrip raw))))) ::
        parseUnitsF n isHeaderDone currentSection rest
    else if isSkillsLine currentSection (pyRstrip raw) then
      ([raw], some (Block.SkillsLine (md_inline (pyRstrip raw)))) ::
        parseUnitsF n isHeaderDone currentSection rest
    else
      (raw :: (bodyCont (pyRstrip raw) rest).2.1,
          some (Block.Body (md_inline (bodyCont (pyRstrip raw) rest).1))) ::
        parseUnitsF n isHeaderDone currentSection (bodyCont (pyRstrip raw) rest).2.2

/-- `parse_resume_md` of the source: split on newlines and run the classifier
with the initial cursor state (header not done, no current section). -/
def parse_resume_md (mdText : Chars) : List Block :=
  parseLinesF (splitLines mdText).length false none (splitLines mdText)

/-- Instrumented parse of a whole document. -/
def parse_units (mdText : Chars) : List (List Chars × Option Block) :=
  parseUnitsF (splitLines mdText).length false none (splitLines mdText)

/-! ## The command-line entry point

The process boundary (filesystem, exit code, error stream) is shallowly
embedded: a filesystem is a map from path to optional content, and a run
is summarized by its exit code, error-stream line, written output file and
the story handed to the renderer. -/

structure RunResult where
  exitCode : Nat
  errLine : Option Chars
  outputWritten : Option Chars
  story : Option (List Block)
deriving DecidableEq

/-- The `__main__` block of the source: default the two positional arguments,
abort with exit code 1 and a message on the error stream when the input path
does not exist, otherwise read the input and run `generate_pdf` (parse, then
hand the story to the renderer and write the output file). -/
def mainRun (fs : Chars → Option Chars) (argv : List Chars) : RunResult :=
  let inputMd := argv.getD 0 "resume.md".data
  let outputPdf := argv.getD 1 "resume.pdf".data
  match fs inputMd with
  | none =>
    { exitCode := 1
      errLine := some ("Error: ".data ++ inputMd ++ " not found".data)
      outputWritten := none
      story := none }
  | some content =>
    { exitCode := 0
      errLine := none
      outputWritten := some outputPdf
      story := some (parse_resume_md content) }

/-! ## Basic lemmas -/

lemma startsL_length {p l : Chars} (h : startsL p l = true) : p.length ≤ l.length := by
  induction p generalizing l with
  | nil => simp
  | cons a ps ih =>
    cases l with
    | nil => simp [startsL] at h
    | cons c cs =>
      simp only [startsL, Bool.and_eq_true] at h
      simpa using ih h.2

lemma startsL_cons_iff {a : Char} {ps : Chars} {l : Chars} :
    startsL (a :: ps) l = true ↔ ∃ cs, l = a :: cs ∧ startsL ps cs = true := by
  cases l with
  | nil => simp [startsL]
  | cons c cs =>
    simp only [startsL, Bool.and_eq_true, beq_iff_eq]
    constructor
    · rintro ⟨rfl, h⟩; exact ⟨cs, rfl, h⟩
    · rintro ⟨cs2, heq, h⟩
      cases heq
      exact ⟨rfl, h⟩

lemma bulletCont_split (t : Chars) (rest : List Chars) :
    (bulletCont t rest).2.1 ++ (bulletCont t rest).2.2 = rest := by
  induction rest generalizing t with
  | nil => simp [bulletCont]
  | cons next r ih =>
    by_cases h : (startsL "  ".data next && !startsL "- ".data (pyStrip next)) = true
    · simp [bulletCont, h, ih]
    · simp [bulletCont, h]

lemma bulletCont_len (t : Chars) (rest : List Chars) :
    (bulletCont t rest).2.2.length ≤ rest.length := by
  have h := bulletCont_split t rest
  have := congrArg List.length h
  simp only [List.length_append] at this
  omega

lemma bulletCont_consumed_indent (t : Chars) (rest : List Chars) :
    ∀ x ∈ (bulletCont t rest).2.1, startsL "  ".data x = true := by
  induction rest generalizing t with
  | nil => simp [bulletCont]
  | cons next r ih =>
    by_cases h : (startsL "  ".data next && !startsL "- ".data (pyStrip next)) = true
    · simp only [bulletCont, h, if_true, List.mem_cons]
      rintro x (rfl | hx)
      · exact (Bool.and_eq_true _ _ |>.mp h).1
      · exact ih _ x hx
    · simp [bulletCont, h]

lemma bodyCont_split (t : Chars) (rest : List Chars) :
    (bodyCont t rest).2.1 ++ (bodyCont t rest).2.2 = rest := by
  induction rest generalizing t with
  | nil => simp [bodyCont]
  | cons next r ih =>
    by_cases h : (!(pyStrip next).isEmpty && !startsL "#".data next &&
        !startsL "- ".data next && !isRuleLine next && !startsL "**".data next) = true
    · simp [bodyCont, h, ih]
    · simp [bodyCont, h]

lemma bodyCont_len (t : Chars) (rest : List Chars) :
    (bodyCont t rest).2.2.length ≤ rest.length := by
  have h := bodyCont_split t rest
  have := congrArg List.length h
  simp only [List.length_append] at this
  omega

lemma bodyCont_consumed_not_rule (t : Chars) (rest : List Chars) :
    ∀ x ∈ (bodyCont t rest).2.1, isRuleLine x = false := by
  induction rest generalizing t with
  | nil => simp [bodyCont]
  | cons next r ih =>
    by_cases h : (!(pyStrip next).isEmpty && !startsL "#".data next &&
        !startsL "- ".data next && !isRuleLine next && !startsL "**".data next) = true
    · simp only [bodyCont, h, if_true, List.mem_cons]
      rintro x (rfl | hx)
      · simp only [Bool.and_eq_true, Bool.not_eq_true'] at h
        exact h.1.2
      · exact ih _ x hx
    · simp [bodyCont, h]

/-! ## Lemmas about the ampersand pass (for idempotence) -/

/-- Every ampersand in `l` begins a recognized entity reference. -/
def ampOk : Chars → Bool
  | [] => true
  | c :: rest => (c != '&' || entityHead rest) && ampOk rest

lemma ampPassF_cons_ne {c : Char} (n : Nat) (rest : Chars) (h : ¬c = '&') :
    ampPassF (n + 1) (c :: rest) = c :: ampPassF n rest := by
  simp [ampPassF, h]

lemma startsL_ampPassF {p : Chars} (hp : ∀ c ∈ p, c ≠ '&') :
    ∀ n rest, p.length ≤ n → startsL p rest = true → startsL p (ampPassF n rest) = true := by
  induction p with
  | nil => intro n rest _ _; simp [startsL]
  | cons a ps ih =>
    intro n rest hn hs
    rcases startsL_cons_iff.mp hs with ⟨cs, rfl, hcs⟩
    have ha : a ≠ '&' := hp a (by simp)
    obtain ⟨m, rfl⟩ : ∃ m, n = m + 1 := ⟨n - 1, by simp at hn; omega⟩
    rw [ampPassF_cons_ne m cs ha]
    refine startsL_cons_iff.mpr ⟨_, rfl, ?_⟩
    exact ih (fun c hc => hp c (by simp [hc])) m cs (by simp at hn; omega) hcs

lemma entityHead_ampPassF {rest : Chars} {n : Nat} (hn : rest.length ≤ n)
    (h : entityHead rest = true) : entityHead (ampPassF n rest) = true := by
  simp only [entityHead, Bool.or_eq_true] at h ⊢
  have key : ∀ p : Chars, (∀ c ∈ p, c ≠ '&') → startsL p rest = true →
      startsL p (ampPassF n rest) = true := by
    intro p hp hs
    exact startsL_ampPassF hp n rest (le_trans (startsL_length hs) hn) hs
  rcases h with ((((h | h) | h) | h) | h)
  · exact Or.inl (Or.inl (Or.inl (Or.inl (key _ (by decide) h))))
  · exact Or.inl (Or.inl (Or.inl (Or.inr (key _ (by decide) h))))
  · exact Or.inl (Or.inl (Or.inr (key _ (by decide) h)))
  · exact Or.inl (Or.inr (key _ (by decide) h))
  · exact Or.inr (key _ (by decide) h)

lemma ampOk_ampPassF : ∀ n l, l.length ≤ n → ampOk (ampPassF n l) = true := by
  intro n
  induction n with
  | zero =>
    intro l hl
    have : l = [] := by cases l <;> simp_all
    subst this; rfl
  | succ n ih =>
    intro l hl
    cases l with
    | nil => rfl
    | cons c rest =>
      simp only [List.length_cons, Nat.succ_le_succ_iff] at hl
      by_cases hc : c = '&'
      · subst hc
        by_cases he : entityHead rest = true
        · have h1 := entityHead_ampPassF hl he
          have h2 := ih rest hl
          simp [ampPassF, he, ampOk, h1, h2]
        · have he2 : entityHead rest = false := by
            cases h : entityHead rest
            · rfl
            · exact absurd h he
          have h2 := ih rest hl
          simp only [ampPassF, beq_self_eq_true, if_true, he2, Bool.false_eq_true, if_false]
          show ampOk (ampPassF n rest) = true
          exact h2
      · rw [ampPassF_cons_ne n rest hc]
        have h2 := ih rest hl
        simp only [ampOk, Bool.and_eq_true, Bool.or_eq_true, bne_iff_ne]
        exact ⟨Or.inl hc, h2⟩

lemma ampPassF_of_ampOk : ∀ n l, ampOk l = true → ampPassF n l = l := by
  intro n
  induction n with
  | zero => intro l _; rfl
  | succ n ih =>
    intro l hl
    cases l with
    | nil => rfl
    | cons c rest =>
      simp only [ampOk, Bool.and_eq_true, Bool.or_eq_true, bne_iff_ne] at hl
      by_cases hc : c = '&'
      · subst hc
        have he : entityHead rest = true := by
          rcases hl.1 with h | h
          · exact absurd rfl h
          · exact h
        simp [ampPassF, he, ih rest hl.2]
      · rw [ampPassF_cons_ne n rest hc, ih rest hl.2]

lemma ampPass_idem (l : Chars) : ampPass (ampPass l) = ampPass l := by
  unfold ampPass
  exact ampPassF_of_ampOk _ _ (ampOk_ampPassF _ _ le_rfl)

/-! ## Identity lemmas for the other passes on marker-free text -/

lemma tryLink_ne (c : Char) (rest : Chars) (h : ¬c = '[') : tryLink (c :: rest) = none := by
  simp [tryLink, h]

lemma linkPassF_id : ∀ n l, '[' ∉ l → linkPassF n l = l := by
  intro n
  induction n with
  | zero => intro l _; rfl
  | succ n ih =>
    intro l hl
    cases l with
    | nil => rfl
    | cons c rest =>
      have hc : ¬c = '[' := fun h => hl (by simp [h])
      simp [linkPassF, tryLink_ne c rest hc, ih rest (fun h => hl (by simp [h]))]

lemma boldPassF_id : ∀ n l, '*' ∉ l → boldPassF n l = l := by
  intro n
  induction n with
  | zero => intro l _; rfl
  | succ n ih =>
    intro l hl
    cases l with
    | nil => rfl
    | cons c rest =>
      have hcc : c ≠ '*' := fun h => hl (by simp [h])
      have hc : (c == '*') = false := by simp [hcc]
      simp [boldPassF, hc, ih rest (fun h => hl (by simp [h]))]

lemma italicPassF_id : ∀ n l, '*' ∉ l → italicPassF n l = l := by
  intro n
  induction n with
  | zero => intro l _; rfl
  | succ n ih =>
    intro l hl
    cases l with
    | nil => rfl
    | cons c rest =>
      have hcc : c ≠ '*' := fun h => hl (by simp [h])
      have hc : (c == '*') = false := by simp [hcc]
      simp [italicPassF, hc, ih rest (fun h => hl (by simp [h]))]

/-! ## One-step unfolding lemmas for the classifier loop

One lemma per classification branch, with the conditions of all
higher-priority branches negated, mirroring the first-match-wins cascade. -/

lemma pu_blank (n : Nat) (hd : Bool) (cs : Option Chars) (raw : Chars) (rest : List Chars)
    (p : (pyRstrip raw).isEmpty = true) :
    parseUnitsF (n + 1) hd cs (raw :: rest) = ([raw], none) :: parseUnitsF n hd cs rest := by
  rw [parseUnitsF, if_pos p]

lemma pu_ruleThick (n : Nat) (hd : Bool) (cs : Option Chars) (raw : Chars) (rest : List Chars)
    (n0 : ¬(pyRstrip raw).isEmpty = true) (p : isRuleLine (pyRstrip raw) = true)
    (q : (!hd) = true) :
    parseUnitsF (n + 1) hd cs (raw :: rest) =
      ([raw], some Block.RuleThick) :: parseUnitsF n true cs rest := by
  rw [parseUnitsF, if_neg n0, if_pos p, if_pos q]

lemma pu_ruleThin (n : Nat) (hd : Bool) (cs : Option Chars) (raw : Chars) (rest : List Chars)
    (n0 : ¬(pyRstrip raw).isEmpty = true) (p : isRuleLine (pyRstrip raw) = true)
    (q : ¬(!hd) = true) :
    parseUnitsF (n + 1) hd cs (raw :: rest) =
      ([raw], some Block.RuleThin) :: parseUnitsF n hd cs rest := by
  rw [parseUnitsF, if_neg n0, if_pos p, if_neg q]

lemma pu_h1 (n : Nat) (hd : Bool) (cs : Option Chars) (raw : Chars) (rest : List Chars)
    (n0 : ¬(pyRstrip raw).isEmpty = true) (n1 : ¬isRuleLine (pyRstrip raw) = true)
    (p : isH1 (pyRstrip raw) = true) :
    parseUnitsF (n + 1) hd cs (raw :: rest) =
      ([raw], some (Block.Title (md_inline (pyStrip ((pyRstrip raw).drop 2))))) ::
        parseUnitsF n hd cs rest := by
  rw [parseUnitsF, if_neg n0, if_neg n1, if_pos p]

lemma pu_h2 (n : Nat) (hd : Bool) (cs : Option Chars) (raw : Chars) (rest : List Chars)
    (n0 : ¬(pyRstrip raw).isEmpty = true) (n1 : ¬isRuleLine (pyRstrip raw) = true)
    (n2 : ¬isH1 (pyRstrip raw) = true) (p : isH2 (pyRstrip raw) = true) :
    parseUnitsF (n + 1) hd cs (raw :: rest) =
      ([raw], some (Block.SectionHeader ((pyStrip ((pyRstrip raw).drop 3)).map Char.toUpper))) ::
        parseUnitsF n hd (some (pyStrip ((pyRstrip raw).drop 3))) rest := by
  rw [parseUnitsF, if_neg n0, if_neg n1, if_neg n2, if_pos p]

lemma pu_h3 (n : Nat) (hd : Bool) (cs : Option Chars) (raw : Chars) (rest : List Chars)
    (n0 : ¬(pyRstrip raw).isEmpty = true) (n1 : ¬isRuleLine (pyRstrip raw) = true)
    (n2 : ¬isH1 (pyRstrip raw) = true) (n3 : ¬isH2 (pyRstrip raw) = true)
    (p : isH3 (pyRstrip raw) = true) :
    parseUnitsF (n + 1) hd cs (raw :: rest) =
      ([raw], some (Block.RoleHeader (md_inline (pyStrip ((pyRstrip raw).drop 4))))) ::
        parseUnitsF n hd cs rest := by
  rw [parseUnitsF, if_neg n0, if_neg n1, if_neg n2, if_neg n3, if_pos p]

lemma pu_company (n : Nat) (hd : Bool) (cs : Option Chars) (raw : Chars) (rest : List Chars)
    (n0 : ¬(pyRstrip raw).isEmpty = true) (n1 : ¬isRuleLine (pyRstrip raw) = true)
    (n2 : ¬isH1 (pyRstrip raw) = true) (n3 : ¬isH2 (pyRstrip raw) = true)
    (n4 : ¬isH3 (pyRstrip raw) = true) (p : isCompanyLine (pyRstrip raw) = true) :
    parseUnitsF (n + 1) hd cs (raw :: rest) =
      ([raw], some (Block.CompanyLine (md_inline (pyRstrip raw)))) ::
        parseUnitsF n hd cs rest := by
  rw [parseUnitsF, if_neg n0, if_neg n1, if_neg n2, if_neg n3, if_neg n4, if_pos p]

lemma pu_subtitle (n : Nat) (hd : Bool) (cs : Option Chars) (raw : Chars) (rest : List Chars)
    (n0 : ¬(pyRstrip raw).isEmpty = true) (n1 : ¬isRuleLine (pyRstrip raw) = true)
    (n2 : ¬isH1 (pyRstrip raw) = true) (n3 : ¬isH2 (pyRstrip raw) = true)
    (n4 : ¬isH3 (pyRstrip raw) = true) (n5 : ¬isCompanyLine (pyRstrip raw) = true)
    (p : (isSubtitleLine (pyRstrip raw) && !hd) = true) :
    parseUnitsF (n + 1) hd cs (raw :: rest) =
      ([raw], some (Block.Subtitle (md_inline (subInner (pyRstrip raw))))) ::
        parseUnitsF n hd cs rest := by
  rw [parseUnitsF, if_neg n0, if_neg n1, if_neg n2, if_neg n3, if_neg n4, if_neg n5, if_pos p]

lemma pu_italic (n : Nat) (hd : Bool) (cs : Option Chars) (raw : Chars) (rest : List Chars)
    (n0 : ¬(pyRstrip raw).isEmpty = true) (n1 : ¬isRuleLine (pyRstrip raw) = true)
    (n2 : ¬isH1 (pyRstrip raw) = true) (n3 : ¬isH2 (pyRstrip raw) = true)
    (n4 : ¬isH3 (pyRstrip raw) = true) (n5 : ¬isCompanyLine (pyRstrip raw) = true)
    (n6 : ¬(isSubtitleLine (pyRstrip raw) && !hd) = true)
    (p : isItalicLabelLine (pyRstrip raw) = true) :
    parseUnitsF (n + 1) hd cs (raw :: rest) =
      ([raw], some (Block.ItalicLabel (pyStrip (stripStar (pyRstrip raw))))) ::
        parseUnitsF n hd cs rest := by
  rw [parseUnitsF, if_neg n0, if_neg n1, if_neg n2, if_neg n3, if_neg n4, if_neg n5, if_neg n6,
    if_pos p]

lemma pu_bullet (n : Nat) (hd : Bool) (cs : Option Chars) (raw : Chars) (rest : List Chars)
    (n0 : ¬(pyRstrip raw).isEmpty = true) (n1 : ¬isRuleLine (pyRstrip raw) = true)
    (n2 : ¬isH1 (pyRstrip raw) = true) (n3 : ¬isH2 (pyRstrip raw) = true)
    (n4 : ¬isH3 (pyRstrip raw) = true) (n5 : ¬isCompanyLine (pyRstrip raw) = true)
    (n6 : ¬(isSubtitleLine (pyRstrip raw) && !hd) = true)
    (n7 : ¬isItalicLabelLine (pyRstrip raw) = true)
    (p : isBulletStart (pyRstrip raw) = true) :
    parseUnitsF (n + 1) hd cs (raw :: rest) =
      (raw :: (bulletCont (pyStrip ((pyRstrip raw).drop 2)) rest).2.1,
          some (Block.Bullet
            (bulletMark ++ md_inline (bulletCont (pyStrip ((pyRstrip raw).drop 2)) rest).1))) ::
        parseUnitsF n hd cs (bulletCont (pyStrip ((pyRstrip raw).drop 2)) rest).2.2 := by
  rw [parseUnitsF, if_neg n0, if_neg n1, if_neg n2, if_neg n3, if_neg n4, if_neg n5, if_neg n6,
    if_neg n7, if_pos p]

lemma pu_contact (n : Nat) (hd : Bool) (cs : Option Chars) (raw : Chars) (rest : List Chars)
    (n0 : ¬(pyRstrip raw).isEmpty = true) (n1 : ¬isRuleLine (pyRstrip raw) = true)
    (n2 : ¬isH1 (pyRstrip raw) = true) (n3 : ¬isH2 (pyRstrip raw) = true)
    (n4 : ¬isH3 (pyRstrip raw) = true) (n5 : ¬isCompanyLine (pyRstrip raw) = true)
    (n6 : ¬(isSubtitleLine (pyRstrip raw) && !hd) = true)
    (n7 : ¬isItalicLabelLine (pyRstrip raw) = true)
    (n8 : ¬isBulletStart (pyRstrip raw) = true)
    (p : isContactLine (pyRstrip raw) = true) :
    parseUnitsF (n + 1) hd cs (raw :: rest) =
      ([raw], some (Block.ContactLine (pipePad (linkStrip (pyRstrip raw))))) ::
        parseUnitsF n hd cs rest := by
  rw [parseUnitsF, if_neg n0, if_neg n1, if_neg n2, if_neg n3, if_neg n4, if_neg n5, if_neg n6,
    if_neg n7, if_neg n8, if_pos p]

lemma pu_skills (n : Nat) (hd : Bool) (cs : Option Chars) (raw : Chars) (rest : List Chars)
    (n0 : ¬(pyRstrip raw).isEmpty = true) (n1 : ¬isRuleLine (pyRstrip raw) = true)
    (n2 : ¬isH1 (pyRstrip raw) = true) (n3 : ¬isH2 (pyRstrip raw) = true)
    (n4 : ¬isH3 (pyRstrip raw) = true) (n5 : ¬isCompanyLine (pyRstrip raw) = true)
    (n6 : ¬(isSubtitleLine (pyRstrip raw) && !hd) = true)
    (n7 : ¬isItalicLabelLine (pyRstrip raw) = true)
    (n8 : ¬isBulletStart (pyRstrip raw) = true)
    (n9 : ¬isContactLine (pyRstrip raw) = true)
    (p : isSkillsLine cs (pyRstrip raw) = true) :
    parseUnitsF (n + 1) hd cs (raw :: rest) =
      ([raw], some (Block.SkillsLine (md_inline (pyRstrip raw)))) ::
        parseUnitsF n hd cs rest := by
  rw [parseUnitsF, if_neg n0, if_neg n1, if_neg n2, if_neg n3, if_neg n4, if_neg n5, if_neg n6,
    if_neg n7, if_neg n8, if_neg n9, if_pos p]

lemma pu_body (n : Nat) (hd : Bool) (cs : Option Chars) (raw : Chars) (rest : List Chars)
    (n0 : ¬(pyRstrip raw).isEmpty = true) (n1 : ¬isRuleLine (pyRstrip raw) = true)
    (n2 : ¬isH1 (pyRstrip raw) = true) (n3 : ¬isH2 (pyRstrip raw) = true)
    (n4 : ¬isH3 (pyRstrip raw) = true) (n5 : ¬isCompanyLine (pyRstrip raw) = true)
    (n6 : ¬(isSubtitleLine (pyRstrip raw) && !hd) = true)
    (n7 : ¬isItalicLabelLine (pyRstrip raw) = true)
    (n8 : ¬isBulletStart (pyRstrip raw) = true)
    (n9 : ¬isContactLine (pyRstrip raw) = true)
    (n10 : ¬isSkillsLine cs (pyRstrip raw) = true) :
    parseUnitsF (n + 1) hd cs (raw :: rest) =
      (raw :: (bodyCont (pyRstrip raw) rest).2.1,
          some (Block.Body (md_inline (bodyCont (pyRstrip raw) rest).1))) ::
        parseUnitsF n hd cs (bodyCont (pyRstrip raw) rest).2.2 := by
  rw [parseUnitsF, if_neg n0, if_neg n1, if_neg n2, if_neg n3, if_neg n4, if_neg n5, if_neg n6,
    if_neg n7, if_neg n8, if_neg n9, if_neg n10]

lemma pl_blank (n : Nat) (hd : Bool) (cs : Option Chars) (raw : Chars) (rest : List Chars)
    (p : (pyRstrip raw).isEmpty = true) :
    parseLinesF (n + 1) hd cs (raw :: rest) = parseLinesF n hd cs rest := by
  rw [parseLinesF, if_pos p]

lemma pl_ruleThick (n : Nat) (hd : Bool) (cs : Option Chars) (raw : Chars) (rest : List Chars)
    (n0 : ¬(pyRstrip raw).isEmpty = true) (p : isRuleLine (pyRstrip raw) = true)
    (q : (!hd) = true) :
    parseLinesF (n + 1) hd cs (raw :: rest) = Block.RuleThick :: parseLinesF n true cs rest := by
  rw [parseLinesF, if_neg n0, if_pos p, if_pos q]

lemma pl_ruleThin (n : Nat) (hd : Bool) (cs : Option Chars) (raw : Chars) (rest : List Chars)
    (n0 : ¬(pyRstrip raw).isEmpty = true) (p : isRuleLine (pyRstrip raw) = true)
    (q : ¬(!hd) = true) :
    parseLinesF (n + 1) hd cs (raw :: rest) = Block.RuleThin :: parseLinesF n hd cs rest := by
  rw [parseLinesF, if_neg n0, if_pos p, if_neg q]

lemma pl_h1 (n : Nat) (hd : Bool) (cs : Option Chars) (raw : Chars) (rest : List Chars)
    (n0 : ¬(pyRstrip raw).isEmpty = true) (n1 : ¬isRuleLine (pyRstrip raw) = true)
    (p : isH1 (pyRstrip raw) = true) :
    parseLinesF (n + 1) hd cs (raw :: rest) =
      Block.Title (md_inline (pyStrip ((pyRstrip raw).drop 2))) :: parseLinesF n hd cs rest := by
  rw [parseLinesF, if_neg n0, if_neg n1, if_pos p]

lemma pl_h2 (n : Nat) (hd : Bool) (cs : Option Chars) (raw : Chars) (rest : List Chars)
    (n0 : ¬(pyRstrip raw).isEmpty = true) (n1 : ¬isRuleLine (pyRstrip raw) = true)
    (n2 : ¬isH1 (pyRstrip raw) = true) (p : isH2 (pyRstrip raw) = true) :
    parseLinesF (n + 1) hd cs (raw :: rest) =
      Block.SectionHeader ((pyStrip ((pyRstrip raw).drop 3)).map Char.toUpper) ::
        parseLinesF n hd (some (pyStrip ((pyRstrip raw).drop 3))) rest := by
  rw [parseLinesF, if_neg n0, if_neg n1, if_neg n2, if_pos p]

lemma pl_h3 (n : Nat) (hd : Bool) (cs : Option Chars) (raw : Chars) (rest : List Chars)
    (n0 : ¬(pyRstrip raw).isEmpty = true) (n1 : ¬isRuleLine (pyRstrip raw) = true)
    (n2 : ¬isH1 (pyRstrip raw) = true) (n3 : ¬isH2 (pyRstrip raw) = true)
    (p : isH3 (pyRstrip raw) = true) :
    parseLinesF (n + 1) hd cs (raw :: rest) =
      Block.RoleHeader (md_inline (pyStrip ((pyRstrip raw).drop 4))) ::
        parseLinesF n hd cs rest := by
  rw [parseLinesF, if_neg n0, if_neg n1, if_neg n2, if_neg n3, if_pos p]

lemma pl_company (n : Nat) (hd : Bool) (cs : Option Chars) (raw : Chars) (rest : List Chars)
    (n0 : ¬(pyRstrip raw).isEmpty = true) (n1 : ¬isRuleLine (pyRstrip raw) = true)
    (n2 : ¬isH1 (pyRstrip raw) = true) (n3 : ¬isH2 (pyRstrip raw) = true)
    (n4 : ¬isH3 (pyRstrip raw) = true) (p : isCompanyLine (pyRstrip raw) = true) :
    parseLinesF (n + 1) hd cs (raw :: rest) =
      Block.CompanyLine (md_inline (pyRstrip raw)) :: parseLinesF n hd cs rest := by
  rw [parseLinesF, if_neg n0, if_neg n1, if_neg n2, if_neg n3, if_neg n4, if_pos p]

lemma pl_subtitle (n : Nat) (hd : Bool) (cs : Option Chars) (raw : Chars) (rest : List Chars)
    (n0 : ¬(pyRstrip raw).isEmpty = true) (n1 : ¬isRuleLine (pyRstrip raw) = true)
    (n2 : ¬isH1 (pyRstrip raw) = true) (n3 : ¬isH2 (pyRstrip raw) = true)
    (n4 : ¬isH3 (pyRstrip raw) = true) (n5 : ¬isCompanyLine (pyRstrip raw) = true)
    (p : (isSubtitleLine (pyRstrip raw) && !hd) = true) :
    parseLinesF (n + 1) hd cs (raw :: rest) =
      Block.Subtitle (md_inline (subInner (pyRstrip raw))) :: parseLinesF n hd cs rest := by
  rw [parseLinesF, if_neg n0, if_neg n1, if_neg n2, if_neg n3, if_neg n4, if_neg n5, if_pos p]

lemma pl_italic (n : Nat) (hd : Bool) (cs : Option Chars) (raw : Chars) (rest : List Chars)
    (n0 : ¬(pyRstrip raw).isEmpty = true) (n1 : ¬isRuleLine (pyRstrip raw) = true)
    (n2 : ¬isH1 (pyRstrip raw) = true) (n3 : ¬isH2 (pyRstrip raw) = true)
    (n4 : ¬isH3 (pyRstrip raw) = true) (n5 : ¬isCompanyLine (pyRstrip raw) = true)
    (n6 : ¬(isSubtitleLine (pyRstrip raw) && !hd) = true)
    (p : isItalicLabelLine (pyRstrip raw) = true) :
    parseLinesF (n + 1) hd cs (raw :: rest) =
      Block.ItalicLabel (pyStrip (stripStar (pyRstrip raw))) :: parseLinesF n hd cs rest := by
  rw [parseLinesF, if_neg n0, if_neg n1, if_neg n2, if_neg n3, if_neg n4, if_neg n5, if_neg n6,
    if_pos p]

lemma pl_bullet (n : Nat) (hd : Bool) (cs : Option Chars) (raw : Chars) (rest : List Chars)
    (n0 : ¬(pyRstrip raw).isEmpty = true) (n1 : ¬isRuleLine (pyRstrip raw) = true)
    (n2 : ¬isH1 (pyRstrip raw) = true) (n3 : ¬isH2 (pyRstrip raw) = true)
    (n4 : ¬isH3 (pyRstrip raw) = true) (n5 : ¬isCompanyLine (pyRstrip raw) = true)
    (n6 : ¬(isSubtitleLine (pyRstrip raw) && !hd) = true)
    (n7 : ¬isItalicLabelLine (pyRstrip raw) = true)
    (p : isBulletStart (pyRstrip raw) = true) :
    parseLinesF (n + 1) hd cs (raw :: rest) =
      Block.Bullet (bulletMark ++ md_inline (bulletCont (pyStrip ((pyRstrip raw).drop 2)) rest).1) ::
        parseLinesF n hd cs (bulletCont (pyStrip ((pyRstrip raw).drop 2)) rest).2.2 := by
  rw [parseLinesF, if_neg n0, if_neg n1, if_neg n2, if_neg n3, if_neg n4, if_neg n5, if_neg n6,
    if_neg n7, if_pos p]

lemma pl_contact (n : Nat) (hd : Bool) (cs : Option Chars) (raw : Chars) (rest : List Chars)
    (n0 : ¬(pyRstrip raw).isEmpty = true) (n1 : ¬isRuleLine (pyRstrip raw) = true)
    (n2 : ¬isH1 (pyRstrip raw) = true) (n3 : ¬isH2 (pyRstrip raw) = true)
    (n4 : ¬isH3 (pyRstrip raw) = true) (n5 : ¬isCompanyLine (pyRstrip raw) = true)
    (n6 : ¬(isSubtitleLine (pyRstrip raw) && !hd) = true)
    (n7 : ¬isItalicLabelLine (pyRstrip raw) = true)
    (n8 : ¬isBulletStart (pyRstrip raw) = true)
    (p : isContactLine (pyRstrip raw) = true) :
    parseLinesF (n + 1) hd cs (raw :: rest) =
      Block.ContactLine (pipePad (linkStrip (pyRstrip raw))) :: parseLinesF n hd cs rest := by
  rw [parseLinesF, if_neg n0, if_neg n1, if_neg n2, if_neg n3, if_neg n4, if_neg n5, if_neg n6,
    if_neg n7, if_neg n8, if_pos p]

lemma pl_skills (n : Nat) (hd : Bool) (cs : Option Chars) (raw : Chars) (rest : List Chars)
    (n0 : ¬(pyRstrip raw).isEmpty = true) (n1 : ¬isRuleLine (pyRstrip raw) = true)
    (n2 : ¬isH1 (pyRstrip raw) = true) (n3 : ¬isH2 (pyRstrip raw) = true)
    (n4 : ¬isH3 (pyRstrip raw) = true) (n5 : ¬isCompanyLine (pyRstrip raw) = true)
    (n6 : ¬(isSubtitleLine (pyRstrip raw) && !hd) = true)
    (n7 : ¬isItalicLabelLine (pyRstrip raw) = true)
    (n8 : ¬isBulletStart (pyRstrip raw) = true)
    (n9 : ¬isContactLine (pyRstrip raw) = true)
    (p : isSkillsLine cs (pyRstrip raw) = true) :
    parseLinesF (n + 1) hd cs (raw :: rest) =
      Block.SkillsLine (md_inline (pyRstrip raw)) :: parseLinesF n hd cs rest := by
  rw [parseLinesF, if_neg n0, if_neg n1, if_neg n2, if_neg n3, if_neg n4, if_neg n5, if_neg n6,
    if_neg n7, if_neg n8, if_neg n9, if_pos p]

lemma pl_body (n : Nat) (hd : Bool) (cs : Option Chars) (raw : Chars) (rest : List Chars)
    (n0 : ¬(pyRstrip raw).isEmpty = true) (n1 : ¬isRuleLine (pyRstrip raw) = true)
    (n2 : ¬isH1 (pyRstrip raw) = true) (n3 : ¬isH2 (pyRstrip raw) = true)
    (n4 : ¬isH3 (pyRstrip raw) = true) (n5 : ¬isCompanyLine (pyRstrip raw) = true)
    (n6 : ¬(isSubtitleLine (pyRstrip raw) && !hd) = true)
    (n7 : ¬isItalicLabelLine (pyRstrip raw) = true)
    (n8 : ¬isBulletStart (pyRstrip raw) = true)
    (n9 : ¬isContactLine (pyRstrip raw) = true)
    (n10 : ¬isSkillsLine cs (pyRstrip raw) = true) :
    parseLinesF (n + 1) hd cs (raw :: rest) =
      Block.Body (md_inline (bodyCont (pyRstrip raw) rest).1) ::
        parseLinesF n hd cs (bodyCont (pyRstrip raw) rest).2.2 := by
  rw [parseLinesF, if_neg n0, if_neg n1, if_neg n2, if_neg n3, if_neg n4, if_neg n5, if_neg n6,
    if_neg n7, if_neg n8, if_neg n9, if_neg n10]

/-! ## Structural lemmas about the classifier loop -/

lemma units_join (n : Nat) (isHeaderDone : Bool) (currentSection : Option Chars)
    (ls : List Chars) (h : ls.length ≤ n) :
    ((parseUnitsF n isHeaderDone currentSection ls).map Prod.fst).flatten = ls := by
  revert h
  induction n, isHeaderDone, currentSection, ls using parseUnitsF.induct with
  | case1 hd cs ls =>
    intro h
    have hnil : ls = [] := by cases ls <;> simp_all
    subst hnil; rfl
  | case2 n hd cs => intro _; rfl
  | case3 n hd cs raw rest h0 ih =>
    intro h
    have hlen : rest.length ≤ n := by simp at h; omega
    rw [pu_blank _ _ _ _ _ h0]
    simp [ih hlen]
  | case4 n hd cs raw rest h0 h1 h2 ih =>
    intro h
    have hlen : rest.length ≤ n := by simp at h; omega
    rw [pu_ruleThick _ _ _ _ _ h0 h1 h2]
    simp [ih hlen]
  | case5 n hd cs raw rest h0 h1 h2 ih =>
    intro h
    have hlen : rest.length ≤ n := by simp at h; omega
    rw [pu_ruleThin _ _ _ _ _ h0 h1 h2]
    simp [ih hlen]
  | case6 n hd cs raw rest h0 h1 h2 ih =>
    intro h
    have hlen : rest.length ≤ n := by simp at h; omega
    rw [pu_h1 _ _ _ _ _ h0 h1 h2]
    simp [ih hlen]
  | case7 n hd cs raw rest h0 h1 h2 h3 ih =>
    intro h
    have hlen : rest.length ≤ n := by simp at h; omega
    rw [pu_h2 _ _ _ _ _ h0 h1 h2 h3]
    simp [ih hlen]
  | case8 n hd cs raw rest h0 h1 h2 h3 h4 ih =>
    intro h
    have hlen : rest.length ≤ n := by simp at h; omega
    rw [pu_h3 _ _ _ _ _ h0 h1 h2 h3 h4]
    simp [ih hlen]
  | case9 n hd cs raw rest h0 h1 h2 h3 h4 h5 ih =>
    intro h
    have hlen : rest.length ≤ n := by simp at h; omega
    rw [pu_company _ _ _ _ _ h0 h1 h2 h3 h4 h5]
    simp [ih hlen]
  | case10 n hd cs raw rest h0 h1 h2 h3 h4 h5 h6 ih =>
    intro h
    have hlen : rest.length ≤ n := by simp at h; omega
    rw [pu_subtitle _ _ _ _ _ h0 h1 h2 h3 h4 h5 h6]
    simp [ih hlen]
  | case11 n hd cs raw rest h0 h1 h2 h3 h4 h5 h6 h7 ih =>
    intro h
    have hlen : rest.length ≤ n := by simp at h; omega
    rw [pu_italic _ _ _ _ _ h0 h1 h2 h3 h4 h5 h6 h7]
    simp [ih hlen]
  | case12 n hd cs raw rest h0 h1 h2 h3 h4 h5 h6 h7 h8 ih =>
    intro h
    have hlen : rest.length ≤ n := by simp at h; omega
    have hql : (bulletCont (pyStrip ((pyRstrip raw).drop 2)) rest).2.2.length ≤ n :=
      le_trans (bulletCont_len _ _) hlen
    rw [pu_bullet _ _ _ _ _ h0 h1 h2 h3 h4 h5 h6 h7 h8]
    simp only [List.map_cons, List.flatten_cons, ih hql, List.cons_append]
    rw [bulletCont_split]
  | case13 n hd cs raw rest h0 h1 h2 h3 h4 h5 h6 h7 h8 h9 ih =>
    intro h
    have hlen : rest.length ≤ n := by simp at h; omega
    rw [pu_contact _ _ _ _ _ h0 h1 h2 h3 h4 h5 h6 h7 h8 h9]
    simp [ih hlen]
  | case14 n hd cs raw rest h0 h1 h2 h3 h4 h5 h6 h7 h8 h9 h10 ih =>
    intro h
    have hlen : rest.length ≤ n := by simp at h; omega
    rw [pu_skills _ _ _ _ _ h0 h1 h2 h3 h4 h5 h6 h7 h8 h9 h10]
    simp [ih hlen]
  | case15 n hd cs raw rest h0 h1 h2 h3 h4 h5 h6 h7 h8 h9 h10 ih =>
    intro h
    have hlen : rest.length ≤ n := by simp at h; omega
    have hql : (bodyCont (pyRstrip raw) rest).2.2.length ≤ n :=
      le_trans (bodyCont_len _ _) hlen
    rw [pu_body _ _ _ _ _ h0 h1 h2 h3 h4 h5 h6 h7 h8 h9 h10]
    simp only [List.map_cons, List.flatten_cons, ih hql, List.cons_append]
    rw [bodyCont_split]

lemma parse_eq_units (n : Nat) (isHeaderDone : Bool) (currentSection : Option Chars)
    (ls : List Chars) (h : ls.length ≤ n) :
    parseLinesF n isHeaderDone currentSection ls =
      (parseUnitsF n isHeaderDone currentSection ls).filterMap Prod.snd := by
  revert h
  induction n, isHeaderDone, currentSection, ls using parseUnitsF.induct with
  | case1 hd cs ls =>
    intro h
    have hnil : ls = [] := by cases ls <;> simp_all
    subst hnil; rfl
  | case2 n hd cs => intro _; rfl
  | case3 n hd cs raw rest h0 ih =>
    intro h
    have hlen : rest.length ≤ n := by simp at h; omega
    rw [pu_blank _ _ _ _ _ h0, pl_blank _ _ _ _ _ h0]
    simp [List.filterMap_cons, ih hlen]
  | case4 n hd cs raw rest h0 h1 h2 ih =>
    intro h
    have hlen : rest.length ≤ n := by simp at h; omega
    rw [pu_ruleThick _ _ _ _ _ h0 h1 h2, pl_ruleThick _ _ _ _ _ h0 h1 h2]
    simp [List.filterMap_cons, ih hlen]
  | case5 n hd cs raw rest h0 h1 h2 ih =>
    intro h
    have hlen : rest.length ≤ n := by simp at h; omega
    rw [pu_ruleThin _ _ _ _ _ h0 h1 h2, pl_ruleThin _ _ _ _ _ h0 h1 h2]
    simp [List.filterMap_cons, ih hlen]
  | case6 n hd cs raw rest h0 h1 h2 ih =>
    intro h
    have hlen : rest.length ≤ n := by simp at h; omega
    rw [pu_h1 _ _ _ _ _ h0 h1 h2, pl_h1 _ _ _ _ _ h0 h1 h2]
    simp [List.filterMap_cons, ih hlen]
  | case7 n hd cs raw rest h0 h1 h2 h3 ih =>
    intro h
    have hlen : rest.length ≤ n := by simp at h; omega
    rw [pu_h2 _ _ _ _ _ h0 h1 h2 h3, pl_h2 _ _ _ _ _ h0 h1 h2 h3]
    simp [List.filterMap_cons, ih hlen]
  | case8 n hd cs raw rest h0 h1 h2 h3 h4 ih =>
    intro h
    have hlen : rest.length ≤ n := by simp at h; omega
    rw [pu_h3 _ _ _ _ _ h0 h1 h2 h3 h4, pl_h3 _ _ _ _ _ h0 h1 h2 h3 h4]
    simp [List.filterMap_cons, ih hlen]
  | case9 n hd cs raw rest h0 h1 h2 h3 h4 h5 ih =>
    intro h
    have hlen : rest.length ≤ n := by simp at h; omega
    rw [pu_company _ _ _ _ _ h0 h1 h2 h3 h4 h5, pl_company _ _ _ _ _ h0 h1 h2 h3 h4 h5]
    simp [List.filterMap_cons, ih hlen]
  | case10 n hd cs raw rest h0 h1 h2 h3 h4 h5 h6 ih =>
    intro h
    have hlen : rest.length ≤ n := by simp at h; omega
    rw [pu_subtitle _ _ _ _ _ h0 h1 h2 h3 h4 h5 h6, pl_subtitle _ _ _ _ _ h0 h1 h2 h3 h4 h5 h6]
    simp [List.filterMap_cons, ih hlen]
  | case11 n hd cs raw rest h0 h1 h2 h3 h4 h5 h6 h7 ih =>
    intro h
    have hlen : rest.length ≤ n := by simp at h; omega
    rw [pu_italic _ _ _ _ _ h0 h1 h2 h3 h4 h5 h6 h7, pl_italic _ _ _ _ _ h0 h1 h2 h3 h4 h5 h6 h7]
    simp [List.filterMap_cons, ih hlen]
  | case12 n hd cs raw rest h0 h1 h2 h3 h4 h5 h6 h7 h8 ih =>
    intro h
    have hlen : rest.length ≤ n := by simp at h; omega
    have hql : (bulletCont (pyStrip ((pyRstrip raw).drop 2)) rest).2.2.length ≤ n :=
      le_trans (bulletCont_len _ _) hlen
    rw [pu_bullet _ _ _ _ _ h0 h1 h2 h3 h4 h5 h6 h7 h8,
      pl_bullet _ _ _ _ _ h0 h1 h2 h3 h4 h5 h6 h7 h8]
    simp [List.filterMap_cons, ih hql]
  | case13 n hd cs raw rest h0 h1 h2 h3 h4 h5 h6 h7 h8 h9 ih =>
    intro h
    have hlen : rest.length ≤ n := by simp at h; omega
    rw [pu_contact _ _ _ _ _ h0 h1 h2 h3 h4 h5 h6 h7 h8 h9,
      pl_contact _ _ _ _ _ h0 h1 h2 h3 h4 h5 h6 h7 h8 h9]
    simp [List.filterMap_cons, ih hlen]
  | case14 n hd cs raw rest h0 h1 h2 h3 h4 h5 h6 h7 h8 h9 h10 ih =>
    intro h
    have hlen : rest.length ≤ n := by simp at h; omega
    rw [pu_skills _ _ _ _ _ h0 h1 h2 h3 h4 h5 h6 h7 h8 h9 h10,
      pl_skills _ _ _ _ _ h0 h1 h2 h3 h4 h5 h6 h7 h8 h9 h10]
    simp [List.filterMap_cons, ih hlen]
  | case15 n hd cs raw rest h0 h1 h2 h3 h4 h5 h6 h7 h8 h9 h10 ih =>
    intro h
    have hlen : rest.length ≤ n := by simp at h; omega
    have hql : (bodyCont (pyRstrip raw) rest).2.2.length ≤ n :=
      le_trans (bodyCont_len _ _) hlen
    rw [pu_body _ _ _ _ _ h0 h1 h2 h3 h4 h5 h6 h7 h8 h9 h10,
      pl_body _ _ _ _ _ h0 h1 h2 h3 h4 h5 h6 h7 h8 h9 h10]
    simp [List.filterMap_cons, ih hql]

lemma units_shape (n : Nat) (isHeaderDone : Bool) (currentSection : Option Chars)
    (ls : List Chars) (h : ls.length ≤ n) :
    ∀ u ∈ parseUnitsF n isHeaderDone currentSection ls,
      ∃ l tl, u.1 = l :: tl ∧ (u.2 = none ↔ pyRstrip l = []) := by
  revert h
  induction n, isHeaderDone, currentSection, ls using parseUnitsF.induct with
  | case1 hd cs ls =>
    intro h u hu
    have hnil : ls = [] := by cases ls <;> simp_all
    subst hnil
    exact absurd hu (List.not_mem_nil u)
  | case2 n hd cs =>
    intro _ u hu
    exact absurd hu (List.not_mem_nil u)
  | case3 n hd cs raw rest h0 ih =>
    intro h
    have hlen : rest.length ≤ n := by simp at h; omega
    rw [pu_blank _ _ _ _ _ h0]
    intro u hu
    rcases List.mem_cons.mp hu with rfl | hu
    · exact ⟨raw, [], rfl, by simp [List.isEmpty_iff.mp h0]⟩
    · exact ih hlen u hu
  | case4 n hd cs raw rest h0 h1 h2 ih =>
    intro h
    have hlen : rest.length ≤ n := by simp at h; omega
    rw [pu_ruleThick _ _ _ _ _ h0 h1 h2]
    intro u hu
    rcases List.mem_cons.mp hu with rfl | hu
    · exact ⟨raw, [], rfl, by simp [List.isEmpty_iff] at h0; simp [h0]⟩
    · exact ih hlen u hu
  | case5 n hd cs raw rest h0 h1 h2 ih =>
    intro h
    have hlen : rest.length ≤ n := by simp at h; omega
    rw [pu_ruleThin _ _ _ _ _ h0 h1 h2]
    intro u hu
    rcases List.mem_cons.mp hu with rfl | hu
    · exact ⟨raw, [], rfl, by simp [List.isEmpty_iff] at h0; simp [h0]⟩
    · exact ih hlen u hu
  | case6 n hd cs raw rest h0 h1 h2 ih =>
    intro h
    have hlen : rest.length ≤ n := by simp at h; omega
    rw [pu_h1 _ _ _ _ _ h0 h1 h2]
    intro u hu
    rcases List.mem_cons.mp hu with rfl | hu
    · exact ⟨raw, [], rfl, by simp [List.isEmpty_iff] at h0; simp [h0]⟩
    · exact ih hlen u hu
  | case7 n hd cs raw rest h0 h1 h2 h3 ih =>
    intro h
    have hlen : rest.length ≤ n := by simp at h; omega
    rw [pu_h2 _ _ _ _ _ h0 h1 h2 h3]
    intro u hu
    rcases List.mem_cons.mp hu with rfl | hu
    · exact ⟨raw, [], rfl, by simp [List.isEmpty_iff] at h0; simp [h0]⟩
    · exact ih hlen u hu
  | case8 n hd cs raw rest h0 h1 h2 h3 h4 ih =>
    intro h
    have hlen : rest.length ≤ n := by simp at h; omega
    rw [pu_h3 _ _ _ _ _ h0 h1 h2 h3 h4]
    intro u hu
    rcases List.mem_cons.mp hu with rfl | hu
    · exact ⟨raw, [], rfl, by simp [List.isEmpty_iff] at h0; simp [h0]⟩
    · exact ih hlen u hu
  | case9 n hd cs raw rest h0 h1 h2 h3 h4 h5 ih =>
    intro h
    have hlen : rest.length ≤ n := by simp at h; omega
    rw [pu_company _ _ _ _ _ h0 h1 h2 h3 h4 h5]
    intro u hu
    rcases List.mem_cons.mp hu with rfl | hu
    · exact ⟨raw, [], rfl, by simp [List.isEmpty_iff] at h0; simp [h0]⟩
    · exact ih hlen u hu
  | case10 n hd cs raw rest h0 h1 h2 h3 h4 h5 h6 ih =>
    intro h
    have hlen : rest.length ≤ n := by simp at h; omega
    rw [pu_subtitle _ _ _ _ _ h0 h1 h2 h3 h4 h5 h6]
    intro u hu
    rcases List.mem_cons.mp hu with rfl | hu
    · exact ⟨raw, [], rfl, by simp [List.isEmpty_iff] at h0; simp [h0]⟩
    · exact ih hlen u hu
  | case11 n hd cs raw rest h0 h1 h2 h3 h4 h5 h6 h7 ih =>
    intro h
    have hlen : rest.length ≤ n := by simp at h; omega
    rw [pu_italic _ _ _ _ _ h0 h1 h2 h3 h4 h5 h6 h7]
    intro u hu
    rcases List.mem_cons.mp hu with rfl | hu
    · exact ⟨raw, [], rfl, by simp [List.isEmpty_iff] at h0; simp [h0]⟩
    · exact ih hlen u hu
  | case12 n hd cs raw rest h0 h1 h2 h3 h4 h5 h6 h7 h8 ih =>
    intro h
    have hlen : rest.length ≤ n := by simp at h; omega
    have hql : (bulletCont (pyStrip ((pyRstrip raw).drop 2)) rest).2.2.length ≤ n :=
      le_trans (bulletCont_len _ _) hlen
    rw [pu_bullet _ _ _ _ _ h0 h1 h2 h3 h4 h5 h6 h7 h8]
    intro u hu
    rcases List.mem_cons.mp hu with rfl | hu
    · exact ⟨raw, _, rfl, by simp [List.isEmpty_iff] at h0; simp [h0]⟩
    · exact ih hql u hu
  | case13 n hd cs raw rest h0 h1 h2 h3 h4 h5 h6 h7 h8 h9 ih =>
    intro h
    have hlen : rest.length ≤ n := by simp at h; omega
    rw [pu_contact _ _ _ _ _ h0 h1 h2 h3 h4 h5 h6 h7 h8 h9]
    intro u hu
    rcases List.mem_cons.mp hu with rfl | hu
    · exact ⟨raw, [], rfl, by simp [List.isEmpty_iff] at h0; simp [h0]⟩
    · exact ih hlen u hu
  | case14 n hd cs raw rest h0 h1 h2 h3 h4 h5 h6 h7 h8 h9 h10 ih =>
    intro h
    have hlen : rest.length ≤ n := by simp at h; omega
    rw [pu_skills _ _ _ _ _ h0 h1 h2 h3 h4 h5 h6 h7 h8 h9 h10]
    intro u hu
    rcases List.mem_cons.mp hu with rfl | hu
    · exact ⟨raw, [], rfl, by simp [List.isEmpty_iff] at h0; simp [h0]⟩
    · exact ih hlen u hu
  | case15 n hd cs raw rest h0 h1 h2 h3 h4 h5 h6 h7 h8 h9 h10 ih =>
    intro h
    have hlen : rest.length ≤ n := by simp at h; omega
    have hql : (bodyCont (pyRstrip raw) rest).2.2.length ≤ n :=
      le_trans (bodyCont_len _ _) hlen
    rw [pu_body _ _ _ _ _ h0 h1 h2 h3 h4 h5 h6 h7 h8 h9 h10]
    intro u hu
    rcases List.mem_cons.mp hu with rfl | hu
    · exact ⟨raw, _, rfl, by simp [List.isEmpty_iff] at h0; simp [h0]⟩
    · exact ih hql u hu

/-! ## Lemmas about rule blocks and the header-done flag -/

def isRuleBlock : Block → Bool
  | Block.RuleThick => true
  | Block.RuleThin => true
  | _ => false

lemma pyRstrip_no_ws {l : Chars} (h : ∀ c ∈ l, pyIsSpace c = false) : pyRstrip l = l := by
  induction l with
  | nil => rfl
  | cons c rest ih =>
    have hr : pyRstrip rest = rest := ih (fun d hd => h d (by simp [hd]))
    rw [pyRstrip, hr]
    cases rest with
    | nil => simp [h c (by simp)]
    | cons d ds => simp

lemma rule_rstrip {raw : Chars} (h : isRuleLine raw = true) : pyRstrip raw = raw := by
  simp only [isRuleLine, Bool.and_eq_true, List.all_eq_true, decide_eq_true_eq] at h
  refine pyRstrip_no_ws (fun c hc => ?_)
  have : c = '-' := by simpa using h.2 c hc
  subst this; decide

lemma raw_rule_false {raw : Chars} (h1 : ¬isRuleLine (pyRstrip raw) = true) :
    isRuleLine raw = false := by
  cases hr : isRuleLine raw
  · rfl
  · exact absurd (by rw [rule_rstrip hr]; exact hr) h1

lemma raw_rule_false_blank {raw : Chars} (h0 : (pyRstrip raw).isEmpty = true) :
    isRuleLine raw = false := by
  cases hr : isRuleLine raw
  · rfl
  · rw [rule_rstrip hr] at h0
    simp only [isRuleLine, Bool.and_eq_true, decide_eq_true_eq] at hr
    rw [List.isEmpty_iff] at h0
    subst h0
    simp at hr

lemma startsL_sp_not_rule {x : Chars} (h : startsL "  ".data x = true) :
    isRuleLine x = false := by
  rcases startsL_cons_iff.mp h with ⟨cs, rfl, _⟩
  have hall : List.all (' ' :: cs) (fun c => c == '-') = false := rfl
  simp [isRuleLine, hall]

lemma bulletCont_countP (t : Chars) (rest : List Chars) :
    (bulletCont t rest).2.2.countP (fun raw => isRuleLine raw) =
      rest.countP (fun raw => isRuleLine raw) := by
  have hsplit := bulletCont_split t rest
  have hzero : (bulletCont t rest).2.1.countP (fun raw => isRuleLine raw) = 0 := by
    rw [List.countP_eq_zero]
    intro x hx
    simp [startsL_sp_not_rule (bulletCont_consumed_indent t rest x hx)]
  calc (bulletCont t rest).2.2.countP (fun raw => isRuleLine raw)
      = (bulletCont t rest).2.1.countP (fun raw => isRuleLine raw) +
          (bulletCont t rest).2.2.countP (fun raw => isRuleLine raw) := by rw [hzero]; omega
    _ = rest.countP (fun raw => isRuleLine raw) := by rw [← List.countP_append, hsplit]

lemma bodyCont_countP (t : Chars) (rest : List Chars) :
    (bodyCont t rest).2.2.countP (fun raw => isRuleLine raw) =
      rest.countP (fun raw => isRuleLine raw) := by
  have hsplit := bodyCont_split t rest
  have hzero : (bodyCont t rest).2.1.countP (fun raw => isRuleLine raw) = 0 := by
    rw [List.countP_eq_zero]
    intro x hx
    simp [bodyCont_consumed_not_rule t rest x hx]
  calc (bodyCont t rest).2.2.countP (fun raw => isRuleLine raw)
      = (bodyCont t rest).2.1.countP (fun raw => isRuleLine raw) +
          (bodyCont t rest).2.2.countP (fun raw => isRuleLine raw) := by rw [hzero]; omega
    _ = rest.countP (fun raw => isRuleLine raw) := by rw [← List.countP_append, hsplit]

lemma rule_blocks_shape (n : Nat) (isHeaderDone : Bool) (currentSection : Option Chars)
    (ls : List Chars) :
    (isHeaderDone = true →
      ∀ b ∈ (parseLinesF n isHeaderDone currentSection ls).filter isRuleBlock,
        b = Block.RuleThin) ∧
    (isHeaderDone = false →
      (parseLinesF n isHeaderDone currentSection ls).filter isRuleBlock = [] ∨
        ∃ tl, (parseLinesF n isHeaderDone currentSection ls).filter isRuleBlock =
            Block.RuleThick :: tl ∧ ∀ b ∈ tl, b = Block.RuleThin) := by
  induction n, isHeaderDone, currentSection, ls using parseLinesF.induct with
  | case1 hd cs ls =>
    exact ⟨fun _ b hb => absurd hb (List.not_mem_nil b), fun _ => Or.inl rfl⟩
  | case2 n hd cs =>
    exact ⟨fun _ b hb => absurd hb (List.not_mem_nil b), fun _ => Or.inl rfl⟩
  | case3 n hd cs raw rest h0 ih =>
    rw [pl_blank _ _ _ _ _ h0]; exact ih
  | case4 n hd cs raw rest h0 h1 h2 ih =>
    rw [pl_ruleThick _ _ _ _ _ h0 h1 h2]
    have hhd : hd = false := by cases hd with | false => rfl | true => simp at h2
    constructor
    · intro h; rw [hhd] at h; exact absurd h (by simp)
    · intro _
      refine Or.inr ⟨(parseLinesF n true cs rest).filter isRuleBlock, rfl, ?_⟩
      exact ih.1 rfl
  | case5 n hd cs raw rest h0 h1 h2 ih =>
    rw [pl_ruleThin _ _ _ _ _ h0 h1 h2]
    have hhd : hd = true := by cases hd with | false => simp at h2 | true => rfl
    constructor
    · intro _ b hb
      rcases List.mem_cons.mp hb with rfl | hb
      · rfl
      · exact ih.1 hhd b hb
    · intro h; rw [hhd] at h; exact absurd h (by simp)
  | case6 n hd cs raw rest h0 h1 h2 ih =>
    rw [pl_h1 _ _ _ _ _ h0 h1 h2]; exact ih
  | case7 n hd cs raw rest h0 h1 h2 h3 ih =>
    rw [pl_h2 _ _ _ _ _ h0 h1 h2 h3]; exact ih
  | case8 n hd cs raw rest h0 h1 h2 h3 h4 ih =>
    rw [pl_h3 _ _ _ _ _ h0 h1 h2 h3 h4]; exact ih
  | case9 n hd cs raw rest h0 h1 h2 h3 h4 h5 ih =>
    rw [pl_company _ _ _ _ _ h0 h1 h2 h3 h4 h5]; exact ih
  | case10 n hd cs raw rest h0 h1 h2 h3 h4 h5 h6 ih =>
    rw [pl_subtitle _ _ _ _ _ h0 h1 h2 h3 h4 h5 h6]; exact ih
  | case11 n hd cs raw rest h0 h1 h2 h3 h4 h5 h6 h7 ih =>
    rw [pl_italic _ _ _ _ _ h0 h1 h2 h3 h4 h5 h6 h7]; exact ih
  | case12 n hd cs raw rest h0 h1 h2 h3 h4 h5 h6 h7 h8 ih =>
    rw [pl_bullet _ _ _ _ _ h0 h1 h2 h3 h4 h5 h6 h7 h8]; exact ih
  | case13 n hd cs raw rest h0 h1 h2 h3 h4 h5 h6 h7 h8 h9 ih =>
    rw [pl_contact _ _ _ _ _ h0 h1 h2 h3 h4 h5 h6 h7 h8 h9]; exact ih
  | case14 n hd cs raw rest h0 h1 h2 h3 h4 h5 h6 h7 h8 h9 h10 ih =>
    rw [pl_skills _ _ _ _ _ h0 h1 h2 h3 h4 h5 h6 h7 h8 h9 h10]; exact ih
  | case15 n hd cs raw rest h0 h1 h2 h3 h4 h5 h6 h7 h8 h9 h10 ih =>
    rw [pl_body _ _ _ _ _ h0 h1 h2 h3 h4 h5 h6 h7 h8 h9 h10]; exact ih

lemma thick_mem (n : Nat) (isHeaderDone : Bool) (currentSection : Option Chars)
    (ls : List Chars) :
    ls.length ≤ n → isHeaderDone = false →
      0 < ls.countP (fun raw => isRuleLine raw) →
      Block.RuleThick ∈ parseLinesF n isHeaderDone currentSection ls := by
  induction n, isHeaderDone, currentSection, ls using parseLinesF.induct with
  | case1 hd cs ls =>
    intro h _ hc
    have hnil : ls = [] := by cases ls <;> simp_all
    subst hnil; simp at hc
  | case2 n hd cs =>
    intro _ _ hc
    simp at hc
  | case3 n hd cs raw rest h0 ih =>
    intro h hhd hc
    have hlen : rest.length ≤ n := by simp at h; omega
    rw [pl_blank _ _ _ _ _ h0]
    refine ih hlen hhd ?_
    rwa [List.countP_cons, raw_rule_false_blank h0, if_neg (by simp)] at hc
  | case4 n hd cs raw rest h0 h1 h2 ih =>
    intro h hhd hc
    rw [pl_ruleThick _ _ _ _ _ h0 h1 h2]
    exact List.mem_cons_self _ _
  | case5 n hd cs raw rest h0 h1 h2 ih =>
    intro h hhd hc
    have : hd = true := by cases hd with | false => simp at h2 | true => rfl
    rw [this] at hhd; exact absurd hhd (by simp)
  | case6 n hd cs raw rest h0 h1 h2 ih =>
    intro h hhd hc
    have hlen : rest.length ≤ n := by simp at h; omega
    rw [pl_h1 _ _ _ _ _ h0 h1 h2]
    refine List.mem_cons_of_mem _ (ih hlen hhd ?_)
    rwa [List.countP_cons, raw_rule_false h1, if_neg (by simp)] at hc
  | case7 n hd cs raw rest h0 h1 h2 h3 ih =>
    intro h hhd hc
    have hlen : rest.length ≤ n := by simp at h; omega
    rw [pl_h2 _ _ _ _ _ h0 h1 h2 h3]
    refine List.mem_cons_of_mem _ (ih hlen hhd ?_)
    rwa [List.countP_cons, raw_rule_false h1, if_neg (by simp)] at hc
  | case8 n hd cs raw rest h0 h1 h2 h3 h4 ih =>
    intro h hhd hc
    have hlen : rest.length ≤ n := by simp at h; omega
    rw [pl_h3 _ _ _ _ _ h0 h1 h2 h3 h4]
    refine List.mem_cons_of_mem _ (ih hlen hhd ?_)
    rwa [List.countP_cons, raw_rule_false h1, if_neg (by simp)] at hc
  | case9 n hd cs raw rest h0 h1 h2 h3 h4 h5 ih =>
    intro h hhd hc
    have hlen : rest.length ≤ n := by simp at h; omega
    rw [pl_company _ _ _ _ _ h0 h1 h2 h3 h4 h5]
    refine List.mem_cons_of_mem _ (ih hlen hhd ?_)
    rwa [List.countP_cons, raw_rule_false h1, if_neg (by simp)] at hc
  | case10 n hd cs raw rest h0 h1 h2 h3 h4 h5 h6 ih =>
    intro h hhd hc
    have hlen : rest.length ≤ n := by simp at h; omega
    rw [pl_subtitle _ _ _ _ _ h0 h1 h2 h3 h4 h5 h6]
    refine List.mem_cons_of_mem _ (ih hlen hhd ?_)
    rwa [List.countP_cons, raw_rule_false h1, if_neg (by simp)] at hc
  | case11 n hd cs raw rest h0 h1 h2 h3 h4 h5 h6 h7 ih =>
    intro h hhd hc
    have hlen : rest.length ≤ n := by simp at h; omega
    rw [pl_italic _ _ _ _ _ h0 h1 h2 h3 h4 h5 h6 h7]
    refine List.mem_cons_of_mem _ (ih hlen hhd ?_)
    rwa [List.countP_cons, raw_rule_false h1, if_neg (by simp)] at hc
  | case12 n hd cs raw rest h0 h1 h2 h3 h4 h5 h6 h7 h8 ih =>
    intro h hhd hc
    have hlen : rest.length ≤ n := by simp at h; omega
    have hql : (bulletCont (pyStrip ((pyRstrip raw).drop 2)) rest).2.2.length ≤ n :=
      le_trans (bulletCont_len _ _) hlen
    rw [pl_bullet _ _ _ _ _ h0 h1 h2 h3 h4 h5 h6 h7 h8]
    refine List.mem_cons_of_mem _ (ih hql hhd ?_)
    rw [bulletCont_countP]
    rwa [List.countP_cons, raw_rule_false h1, if_neg (by simp)] at hc
  | case13 n hd cs raw rest h0 h1 h2 h3 h4 h5 h6 h7 h8 h9 ih =>
    intro h hhd hc
    have hlen : rest.length ≤ n := by simp at h; omega
    rw [pl_contact _ _ _ _ _ h0 h1 h2 h3 h4 h5 h6 h7 h8 h9]
    refine List.mem_cons_of_mem _ (ih hlen hhd ?_)
    rwa [List.countP_cons, raw_rule_false h1, if_neg (by simp)] at hc
  | case14 n hd cs raw rest h0 h1 h2 h3 h4 h5 h6 h7 h8 h9 h10 ih =>
    intro h hhd hc
    have hlen : rest.length ≤ n := by simp at h; omega
    rw [pl_skills _ _ _ _ _ h0 h1 h2 h3 h4 h5 h6 h7 h8 h9 h10]
    refine List.mem_cons_of_mem _ (ih hlen hhd ?_)
    rwa [List.countP_cons, raw_rule_false h1, if_neg (by simp)] at hc
  | case15 n hd cs raw rest h0 h1 h2 h3 h4 h5 h6 h7 h8 h9 h10 ih =>
    intro h hhd hc
    have hlen : rest.length ≤ n := by simp at h; omega
    have hql : (bodyCont (pyRstrip raw) rest).2.2.length ≤ n :=
      le_trans (bodyCont_len _ _) hlen
    rw [pl_body _ _ _ _ _ h0 h1 h2 h3 h4 h5 h6 h7 h8 h9 h10]
    refine List.mem_cons_of_mem _ (ih hql hhd ?_)
    rw [bodyCont_countP]
    rwa [List.countP_cons, raw_rule_false h1, if_neg (by simp)] at hc

/-! ## Shape lemmas for bullet lines and indented continuations -/

lemma bullet_shape {l : Chars} (h : startsL "- ".data l = true) :
    ∃ t, l = '-' :: ' ' :: t := by
  rcases startsL_cons_iff.mp h with ⟨cs, rfl, h2⟩
  rcases startsL_cons_iff.mp h2 with ⟨t, rfl, _⟩
  exact ⟨t, rfl⟩

lemma dash_space_not_rule (t : Chars) : isRuleLine ('-' :: ' ' :: t) = false := by
  have hall : List.all ('-' :: ' ' :: t) (fun c => c == '-') = false := rfl
  simp [isRuleLine, hall]

lemma dash_space_not_subtitle (t : Chars) : isSubtitleLine ('-' :: ' ' :: t) = false := by
  have hs : startsL "**".data ('-' :: ' ' :: t) = false := rfl
  simp [isSubtitleLine, hs]

lemma pyRstrip_cons_of_ne_nil {l : Chars} (c : Char) (h : pyRstrip l ≠ []) :
    pyRstrip (c :: l) = c :: pyRstrip l := by
  rw [pyRstrip]
  simp only [List.isEmpty_iff]
  rw [if_neg h]

lemma pyRstrip_star_ne_nil (u : Chars) : pyRstrip ('*' :: u) ≠ [] := by
  rw [pyRstrip]
  simp only [List.isEmpty_iff]
  by_cases h : pyRstrip u = []
  · rw [if_pos h]
    simp [pyIsSpace]
  · rw [if_neg h]
    simp

lemma pyStrip_indent_bold (u : Chars) :
    pyStrip (' ' :: ' ' :: '*' :: '*' :: u) = '*' :: pyRstrip ('*' :: u) := by
  have e1 : pyRstrip ('*' :: '*' :: u) = '*' :: pyRstrip ('*' :: u) :=
    pyRstrip_cons_of_ne_nil '*' (pyRstrip_star_ne_nil u)
  have e2 : pyRstrip (' ' :: '*' :: '*' :: u) = ' ' :: pyRstrip ('*' :: '*' :: u) :=
    pyRstrip_cons_of_ne_nil ' ' (by rw [e1]; simp)
  have e3 : pyRstrip (' ' :: ' ' :: '*' :: '*' :: u) = ' ' :: pyRstrip (' ' :: '*' :: '*' :: u) :=
    pyRstrip_cons_of_ne_nil ' ' (by rw [e2]; simp)
  rw [pyStrip, e3, e2, e1]
  rfl

/-! ## The claims -/

/-- Claim C1: if the input path does not exist, the run reports an error on the
error stream and terminates with a non-zero exit code before any parsing or
rendering occurs, and no output file is created; if the input path exists, the
run proceeds to parse and render (story built from the input, output written). -/
theorem claim_c1_missing_input (fs : Chars → Option Chars) (argv : List Chars) :
    (fs (argv.getD 0 "resume.md".data) = none →
      (mainRun fs argv).exitCode ≠ 0 ∧
      (mainRun fs argv).errLine =
        some ("Error: ".data ++ argv.getD 0 "resume.md".data ++ " not found".data) ∧
      (mainRun fs argv).outputWritten = none ∧
      (mainRun fs argv).story = none) ∧
    (∀ content, fs (argv.getD 0 "resume.md".data) = some content →
      (mainRun fs argv).exitCode = 0 ∧
      (mainRun fs argv).story = some (parse_resume_md content) ∧
      (mainRun fs argv).outputWritten = some (argv.getD 1 "resume.pdf".data)) := by
  constructor
  · intro h
    simp only [mainRun]
    rw [h]
    exact ⟨Nat.one_ne_zero, rfl, rfl, rfl⟩
  · intro content h
    simp only [mainRun]
    rw [h]
    exact ⟨rfl, rfl, rfl⟩

/-- Witness for claim C1 at two concrete filesystems: one where the requested
input is missing, one where it is present. -/
theorem claim_c1_witness :
    ((mainRun (fun _ => none) ["missing.md".data]).exitCode ≠ 0 ∧
      (mainRun (fun _ => none) ["missing.md".data]).errLine =
        some ("Error: ".data ++ ["missing.md".data].getD 0 "resume.md".data ++ " not found".data) ∧
      (mainRun (fun _ => none) ["missing.md".data]).outputWritten = none ∧
      (mainRun (fun _ => none) ["missing.md".data]).story = none) ∧
    ((mainRun (fun _ => some "# A".data) ["in.md".data]).exitCode = 0 ∧
      (mainRun (fun _ => some "# A".data) ["in.md".data]).story =
        some (parse_resume_md "# A".data) ∧
      (mainRun (fun _ => some "# A".data) ["in.md".data]).outputWritten =
        some (["in.md".data].getD 1 "resume.pdf".data)) :=
  ⟨(claim_c1_missing_input (fun _ => none) ["missing.md".data]).1 rfl,
   (claim_c1_missing_input (fun _ => some "# A".data) ["in.md".data]).2 "# A".data rfl⟩

/-- Claim C3: the inline normalizer applies link, bold, italic and
ampersand-escape rewrites in this fixed order (this is the shape of
`md_inline`); on the specified input it produces bold-wrapped Bold,
italic-wrapped italic and an accent-colored hyperlink to http://x, in that
order, with the surrounding literal text unchanged. -/
theorem claim_c3_inline_order :
    md_inline "**Bold** and *italic* and [link](http://x)".data =
      "<b>Bold</b> and <i>italic</i> and <a href=\"http://x\" color=\"#2d6a8f\">link</a>".data ∧
    md_inline "**Bold** and *italic* and [link](http://x)".data =
      ampPass (italicPass (boldPass (linkPass
        "**Bold** and *italic* and [link](http://x)".data))) :=
  ⟨rfl, rfl⟩

/-- Claim C4 counterexample: the normalizer is not idempotent on all of its
outputs; normalizing the output of the input of four asterisks a second time
changes it again. -/
theorem claim_c4_counterexample :
    md_inline (md_inline "****".data) ≠ md_inline "****".data := by decide

/-- Claim C4 (amended): the ampersand-escaping pass is idempotent on every
string, so no entity is ever double-escaped; and the full normalizer is
idempotent on every output that has no residual asterisk and no residual
opening bracket. Outputs with residual emphasis markers can be rewritten
again (see the counterexample). -/
theorem claim_c4_idempotent_amended (s : Chars) :
    ampPass (ampPass s) = ampPass s ∧
    ('*' ∉ md_inline s → '[' ∉ md_inline s →
      md_inline (md_inline s) = md_inline s) := by
  refine ⟨ampPass_idem s, fun hstar hbr => ?_⟩
  have h1 : linkPass (md_inline s) = md_inline s := linkPassF_id _ _ hbr
  have h2 : boldPass (md_inline s) = md_inline s := boldPassF_id _ _ hstar
  have h3 : italicPass (md_inline s) = md_inline s := italicPassF_id _ _ hstar
  calc md_inline (md_inline s)
      = ampPass (italicPass (boldPass (linkPass (md_inline s)))) := rfl
    _ = ampPass (md_inline s) := by rw [h1, h2, h3]
    _ = md_inline s := ampPass_idem (italicPass (boldPass (linkPass s)))

/-- Witness for claim C4 at a concrete input whose normalization leaves no
asterisk and no bracket. -/
theorem claim_c4_witness :
    ('*' ∉ md_inline "a & b".data) ∧ ('[' ∉ md_inline "a & b".data) ∧
      md_inline (md_inline "a & b".data) = md_inline "a & b".data :=
  ⟨by decide, by decide,
    (claim_c4_idempotent_amended "a & b".data).2 (by decide) (by decide)⟩

/-- Claim C5: the classifier is total: it consumes every line of every input
into exactly one unit (the unit spans concatenate back to the split input, so
parsing terminates having classified everything and no line is ever
rejected), and each unit emits exactly one block unless its line is blank
after trimming (unmatched lines fall to the Body default inside the unit
builder rather than erroring). -/
theorem claim_c5_totality (md : Chars) :
    ((parse_units md).map Prod.fst).flatten = splitLines md ∧
    ∀ u ∈ parse_units md, ∃ l tl, u.1 = l :: tl ∧ (u.2 = none ↔ pyRstrip l = []) :=
  ⟨units_join _ _ _ _ le_rfl, units_shape _ _ _ _ le_rfl⟩

/-- Witness for claim C5 at a concrete document with a blank line, a bullet
continuation and a body fall-through. -/
theorem claim_c5_witness :
    ((parse_units "# A\n\n- x\n  y\nplain".data).map Prod.fst).flatten =
      splitLines "# A\n\n- x\n  y\nplain".data ∧
    ∀ u ∈ parse_units "# A\n\n- x\n  y\nplain".data,
      ∃ l tl, u.1 = l :: tl ∧ (u.2 = none ↔ pyRstrip l = []) :=
  claim_c5_totality "# A\n\n- x\n  y\nplain".data

/-- Claim C6: blocks appear in exactly the order of the recognized spans of
input lines: the block sequence is the in-order projection of the unit
sequence, whose spans concatenate to the input lines in document order, so
no reordering or sorting ever happens. -/
theorem claim_c6_document_order (md : Chars) :
    parse_resume_md md = (parse_units md).filterMap Prod.snd ∧
    ((parse_units md).map Prod.fst).flatten = splitLines md :=
  ⟨parse_eq_units _ _ _ _ le_rfl, units_join _ _ _ _ le_rfl⟩

/-- Claim C10: SectionHeader, ItalicLabel and ContactLine text is produced
without the inline normalizer, so a literal ampersand in such lines reaches
the renderer unescaped, while a kind that is normalized (here Title) has its
ampersand escaped. -/
theorem claim_c10_unnormalized_kinds :
    parse_resume_md "## R & D".data = [Block.SectionHeader "R & D".data] ∧
    parse_resume_md "*Ads & Media*".data = [Block.ItalicLabel "Ads & Media".data] ∧
    parse_resume_md "a@b | R & D".data =
      [Block.ContactLine "a@b &nbsp;|&nbsp; R & D".data] ∧
    parse_resume_md "# A & B".data = [Block.Title "A &amp; B".data] :=
  ⟨rfl, rfl, rfl, rfl⟩

/-- Claim C2 counterexample: the document of a body line followed by three
hyphens and a trailing space has one line matching three-or-more hyphens
after trailing-whitespace trimming, yet the parse emits no RuleThick block at
all: the line is absorbed into the preceding body paragraph, because the
body-continuation stop condition tests the raw, untrimmed line. -/
theorem claim_c2_counterexample :
    (splitLines "hello\n--- ".data).countP (fun raw => isRuleLine (pyRstrip raw)) = 1 ∧
    (parse_resume_md "hello\n--- ".data).countP (fun b => b == Block.RuleThick) = 0 ∧
    parse_resume_md "hello\n--- ".data = [Block.Body "hello ---".data] :=
  ⟨rfl, rfl, rfl⟩

/-- Claim C2 (amended): among the lines the classifier actually reaches, the
first rule line produces RuleThick and flips the header-done flag, every
later one produces RuleThin, and the flag never returns to false: the rule
blocks of any parse are empty or one RuleThick followed only by RuleThins;
any document with a line that matches three-or-more hyphens before trimming
(such a line is never absorbed by a continuation) does get its RuleThick; and
once the flag is true no RuleThick is ever emitted again. -/
theorem claim_c2_rule_blocks :
    (∀ md : Chars,
      ((parse_resume_md md).filter isRuleBlock = [] ∨
        ∃ tl, (parse_resume_md md).filter isRuleBlock = Block.RuleThick :: tl ∧
          ∀ b ∈ tl, b = Block.RuleThin) ∧
      (0 < (splitLines md).countP (fun raw => isRuleLine raw) →
        Block.RuleThick ∈ parse_resume_md md)) ∧
    (∀ n currentSection ls b, b ∈ parseLinesF n true currentSection ls →
      b ≠ Block.RuleThick) := by
  constructor
  · intro md
    exact ⟨(rule_blocks_shape _ _ _ _).2 rfl, thick_mem _ _ _ _ le_rfl rfl⟩
  · intro n cs ls b hb hbe
    subst hbe
    have hmem : Block.RuleThick ∈ (parseLinesF n true cs ls).filter isRuleBlock :=
      List.mem_filter.mpr ⟨hb, rfl⟩
    have := (rule_blocks_shape n true cs ls).1 rfl Block.RuleThick hmem
    simp at this

/-- Witness for claim C2 at a concrete two-rule document. -/
theorem claim_c2_witness :
    (((parse_resume_md "a\n---\nb\n---\nc".data).filter isRuleBlock = [] ∨
        ∃ tl, (parse_resume_md "a\n---\nb\n---\nc".data).filter isRuleBlock =
            Block.RuleThick :: tl ∧ ∀ b ∈ tl, b = Block.RuleThin) ∧
      (0 < (splitLines "a\n---\nb\n---\nc".data).countP (fun raw => isRuleLine raw) →
        Block.RuleThick ∈ parse_resume_md "a\n---\nb\n---\nc".data)) ∧
    Block.RuleThick ∈ parse_resume_md "a\n---\nb\n---\nc".data :=
  ⟨claim_c2_rule_blocks.1 "a\n---\nb\n---\nc".data,
   (claim_c2_rule_blocks.1 "a\n---\nb\n---\nc".data).2 (by decide)⟩

/-- Claim C7: a line whose trimmed form starts with a dash and a space is
classified as one Bullet block: the continuation loop absorbs following raw
lines while they exist, start with two spaces and are not themselves new
bullets (each absorbed stripped and joined with one space), the combined text
passes through the inline normalizer exactly once, and the rendered text is
prefixed with the bullet glyph and a non-breaking space. -/
theorem claim_c7_bullet :
    (∀ n (hd : Bool) (cs : Option Chars) raw rest,
      isBulletStart (pyRstrip raw) = true →
      parseLinesF (n + 1) hd cs (raw :: rest) =
        Block.Bullet (bulletMark ++
            md_inline (bulletCont (pyStrip ((pyRstrip raw).drop 2)) rest).1) ::
          parseLinesF n hd cs (bulletCont (pyStrip ((pyRstrip raw).drop 2)) rest).2.2) ∧
    (∀ t next r, startsL "  ".data next = true → startsL "- ".data (pyStrip next) = false →
      bulletCont t (next :: r) =
        ((bulletCont (t ++ ' ' :: pyStrip next) r).1,
         next :: (bulletCont (t ++ ' ' :: pyStrip next) r).2.1,
         (bulletCont (t ++ ' ' :: pyStrip next) r).2.2)) ∧
    (∀ t next r, ¬(startsL "  ".data next = true ∧ startsL "- ".data (pyStrip next) = false) →
      bulletCont t (next :: r) = (t, [], next :: r)) ∧
    (∀ t, bulletCont t [] = (t, [], [])) := by
  refine ⟨?_, ?_, ?_, fun t => rfl⟩
  · intro n hd cs raw rest hb
    obtain ⟨u, hu⟩ := bullet_shape hb
    refine pl_bullet _ _ _ _ _ ?_ ?_ ?_ ?_ ?_ ?_ ?_ ?_ hb
    · rw [hu]; simp
    · rw [hu, dash_space_not_rule]; simp
    · rw [hu]; simp [isH1, startsL]
    · rw [hu]; simp [isH2, startsL]
    · rw [hu]; simp [isH3, startsL]
    · rw [hu]; simp [isCompanyLine, companyBold, startsL]
    · rw [hu, dash_space_not_subtitle]; simp
    · rw [hu]; simp [isItalicLabelLine, startsL]
  · intro t next r h1 h2
    have hcond : (startsL "  ".data next && !startsL "- ".data (pyStrip next)) = true := by
      simp [h1, h2]
    simp [bulletCont, hcond]
  · intro t next r h
    have hcond : (startsL "  ".data next && !startsL "- ".data (pyStrip next)) = false := by
      cases ha : startsL "  ".data next
      · simp
      · cases hb2 : startsL "- ".data (pyStrip next)
        · exact absurd ⟨ha, hb2⟩ h
        · simp [hb2]
    simp [bulletCont, hcond]

/-- Witness for claim C7 at a concrete bullet with one indented continuation
line. -/
theorem claim_c7_witness :
    (parseLinesF (1 + 1) false none ("- a".data :: ["  b c".data]) =
      Block.Bullet (bulletMark ++
          md_inline (bulletCont (pyStrip ((pyRstrip "- a".data).drop 2)) ["  b c".data]).1) ::
        parseLinesF 1 false none
          (bulletCont (pyStrip ((pyRstrip "- a".data).drop 2)) ["  b c".data]).2.2) ∧
    bulletCont "a".data ("  b c".data :: []) =
      ((bulletCont ("a".data ++ ' ' :: pyStrip "  b c".data) []).1,
       "  b c".data :: (bulletCont ("a".data ++ ' ' :: pyStrip "  b c".data) []).2.1,
       (bulletCont ("a".data ++ ' ' :: pyStrip "  b c".data) []).2.2) :=
  ⟨claim_c7_bullet.1 1 false none "- a".data ["  b c".data] (by decide),
   claim_c7_bullet.2.1 "a".data "  b c".data [] (by decide) (by decide)⟩

/-- Claim C8: body continuation absorbs the next raw line only while it is
non-blank, does not start with a hash, does not start with dash-space, is not
a raw rule line, and does not start with two asterisks (each absorbed line
stripped and space-joined); bullet continuation, by contrast, does not stop
on two asterisks: a two-space-indented line beginning with two asterisks is
still absorbed into the bullet. -/
theorem claim_c8_continuation :
    (∀ p next r, startsL "**".data next = true → bodyCont p (next :: r) = (p, [], next :: r)) ∧
    (∀ p next r, (pyStrip next).isEmpty = false → startsL "#".data next = false →
      startsL "- ".data next = false → isRuleLine next = false →
      startsL "**".data next = false →
      bodyCont p (next :: r) =
        ((bodyCont (p ++ ' ' :: pyStrip next) r).1,
         next :: (bodyCont (p ++ ' ' :: pyStrip next) r).2.1,
         (bodyCont (p ++ ' ' :: pyStrip next) r).2.2)) ∧
    (∀ t next r, startsL "  **".data next = true →
      bulletCont t (next :: r) =
        ((bulletCont (t ++ ' ' :: pyStrip next) r).1,
         next :: (bulletCont (t ++ ' ' :: pyStrip next) r).2.1,
         (bulletCont (t ++ ' ' :: pyStrip next) r).2.2)) := by
  refine ⟨?_, ?_, ?_⟩
  · intro p next r h
    have hcond : (!(pyStrip next).isEmpty && !startsL "#".data next &&
        !startsL "- ".data next && !isRuleLine next && !startsL "**".data next) = false := by
      simp [h]
    simp [bodyCont, hcond]
  · intro p next r h1 h2 h3 h4 h5
    have hcond : (!(pyStrip next).isEmpty && !startsL "#".data next &&
        !startsL "- ".data next && !isRuleLine next && !startsL "**".data next) = true := by
      simp [h1, h2, h3, h4, h5]
    simp [bodyCont, hcond]
  · intro t next r h
    rcases startsL_cons_iff.mp h with ⟨c1, rfl, ha⟩
    rcases startsL_cons_iff.mp ha with ⟨c2, rfl, hb⟩
    rcases startsL_cons_iff.mp hb with ⟨c3, rfl, hc⟩
    rcases startsL_cons_iff.mp hc with ⟨u, rfl, _⟩
    have hstrip := pyStrip_indent_bold u
    have hcond : (startsL "  ".data (' ' :: ' ' :: '*' :: '*' :: u) &&
        !startsL "- ".data (pyStrip (' ' :: ' ' :: '*' :: '*' :: u))) = true := by
      rw [hstrip]
      rfl
    simp [bulletCont, hcond]

/-- Witness for claim C8 at concrete continuation lines. -/
theorem claim_c8_witness :
    bodyCont "p".data ("**x".data :: []) = ("p".data, [], "**x".data :: []) ∧
    bodyCont "p".data ("more".data :: []) =
      ((bodyCont ("p".data ++ ' ' :: pyStrip "more".data) []).1,
       "more".data :: (bodyCont ("p".data ++ ' ' :: pyStrip "more".data) []).2.1,
       (bodyCont ("p".data ++ ' ' :: pyStrip "more".data) []).2.2) ∧
    bulletCont "t".data ("  **x** y".data :: []) =
      ((bulletCont ("t".data ++ ' ' :: pyStrip "  **x** y".data) []).1,
       "  **x** y".data :: (bulletCont ("t".data ++ ' ' :: pyStrip "  **x** y".data) []).2.1,
       (bulletCont ("t".data ++ ' ' :: pyStrip "  **x** y".data) []).2.2) :=
  ⟨claim_c8_continuation.1 "p".data "**x".data [] (by decide),
   claim_c8_continuation.2.1 "p".data "more".data [] (by decide) (by decide) (by decide)
     (by decide) (by decide),
   claim_c8_continuation.2.2 "t".data "  **x** y".data [] (by decide)⟩

/-- Claim C9: with an active current section whose lower-cased name contains
the substring expertise, a line containing a double asterisk that matches no
higher-priority rule is classified as a SkillsLine with inline-normalized
text; and concretely, after a Technical Expertise section header, the line
of bold Languages followed by Go and Rust becomes a SkillsLine, not a Body. -/
theorem claim_c9_skills :
    (∀ n (hd : Bool) (s : Chars) raw rest,
      (pyRstrip raw).isEmpty = false → isRuleLine (pyRstrip raw) = false →
      isH1 (pyRstrip raw) = false → isH2 (pyRstrip raw) = false →
      isH3 (pyRstrip raw) = false → isCompanyLine (pyRstrip raw) = false →
      (isSubtitleLine (pyRstrip raw) && !hd) = false →
      isItalicLabelLine (pyRstrip raw) = false →
      isBulletStart (pyRstrip raw) = false → isContactLine (pyRstrip raw) = false →
      containsL "expertise".data (s.map Char.toLower) = true →
      containsL "**".data (pyRstrip raw) = true →
      parseLinesF (n + 1) hd (some s) (raw :: rest) =
        Block.SkillsLine (md_inline (pyRstrip raw)) :: parseLinesF n hd (some s) rest) ∧
    parse_resume_md "## Technical Expertise\n\n**Languages:** Go, Rust".data =
      [Block.SectionHeader "TECHNICAL EXPERTISE".data,
       Block.SkillsLine (md_inline "**Languages:** Go, Rust".data)] := by
  refine ⟨?_, rfl⟩
  intro n hd s raw rest h0 h1 h2 h3 h4 h5 h6 h7 h8 h9 hexp hbb
  refine pl_skills _ _ _ _ _ (by simp [h0]) (by simp [h1]) (by simp [h2]) (by simp [h3])
    (by simp [h4]) (by simp [h5]) (by simp [h6]) (by simp [h7]) (by simp [h8]) (by simp [h9]) ?_
  simp [isSkillsLine, hexp, hbb]

/-- Witness for claim C9 at the concrete skills line under a Technical
Expertise section. -/
theorem claim_c9_witness :
    parseLinesF (0 + 1) true (some "Technical Expertise".data)
        ("**Languages:** Go, Rust".data :: []) =
      Block.SkillsLine (md_inline (pyRstrip "**Languages:** Go, Rust".data)) ::
        parseLinesF 0 true (some "Technical Expertise".data) [] :=
  claim_c9_skills.1 0 true "Technical Expertise".data "**Languages:** Go, Rust".data []
    (by decide) (by decide) (by decide) (by decide) (by decide) (by decide) (by decide)
    (by decide) (by decide) (by decide) (by decide) (by decide)

end MdResume

